import Mathlib

set_option linter.unusedVariables false
set_option linter.unnecessarySeqFocus false

/-!
Shallow embedding of the ARM Debug Interface transfer engine
(`src/probe-rs/src/architecture/arm/traits/polyfill.rs`) and of the WCH-Link
DMI shim (`src/probe-rs/src/probe/wlink/mod.rs`), together with theorems
settling the specification claims.

Machine integers are modelled as `Nat` with explicit truncation where the
source relies on a fixed width.  Probe I/O is modelled by a scripted oracle
inside an explicit probe state; `&mut` state is threaded explicitly.  Rust
panics (assertions, out-of-range indexing, `unwrap`, `unreachable!`) are
modelled by a distinguished `panic` error.
-/

namespace Polyfill

/-- Wire protocols, from `probe::WireProtocol`. -/
inductive WireProtocol
  | Swd
  | Jtag
deriving DecidableEq, Repr

/-- DAP protocol errors, from `architecture::arm::DapError`. -/
inductive DapError
  | WaitResponse
  | FaultResponse
  | NoAcknowledge
  | IncorrectParity
  | Protocol (wire : WireProtocol)
deriving DecidableEq, Repr

/-- Per-transfer status, from `TransferStatus` in polyfill.rs. -/
inductive TransferStatus
  | Pending
  | Ok
  | Failed (e : DapError)
deriving DecidableEq, Repr

/-- Modelled from the spec: a DP register address is an address byte together
with an optional bank (`RegisterAddress` §3; the concrete type lives outside
the sources under verification). -/
structure DpRegisterAddress where
  address : Nat
  bank : Option Nat
deriving DecidableEq, Repr

namespace DPIDR

/-- Modelled from the spec: the DPIDR DP register (ADIv5 address 0x0, read). -/
def ADDRESS : DpRegisterAddress := ⟨0x0, none⟩

end DPIDR

namespace Abort

/-- Modelled from the spec: the ABORT DP register (ADIv5 address 0x0, write). -/
def ADDRESS : DpRegisterAddress := ⟨0x0, none⟩

end Abort

namespace Ctrl

/-- Modelled from the spec: the CTRL/STAT DP register (ADIv5 address 0x4, bank 0). -/
def ADDRESS : DpRegisterAddress := ⟨0x4, some 0⟩

/-- Modelled from the spec: the STICKYERR flag of CTRL/STAT (ADIv5 bit 5). -/
def sticky_err (v : Nat) : Bool := v.testBit 5

end Ctrl

namespace RdBuff

/-- Modelled from the spec: the RDBUFF DP register (ADIv5 address 0xC, read). -/
def ADDRESS : DpRegisterAddress := ⟨0xC, none⟩

end RdBuff

/-- Modelled from the spec: the ABORT register value with the fields the engine
uses (ADIv5: DAPABORT bit 0, STKERRCLR bit 2, ORUNERRCLR bit 4). -/
def abortValue (dapabort stkerrclr orunerrclr : Bool) : Nat :=
  dapabort.toNat * 1 + stkerrclr.toNat * 4 + orunerrclr.toNat * 16

/-- Modelled from the spec: register addresses, tagged DP or AP
(`RegisterAddress` §3). -/
inductive RegisterAddress
  | DpRegister (a : DpRegisterAddress)
  | ApRegister (ap : Nat) (address : Nat)
deriving DecidableEq, Repr

def RegisterAddress.is_ap : RegisterAddress → Bool
  | .DpRegister _ => false
  | .ApRegister _ _ => true

/-- Modelled from the spec: the register address byte used for framing. -/
def RegisterAddress.lsb : RegisterAddress → Nat
  | .DpRegister a => a.address
  | .ApRegister _ address => address

/-- Modelled from the spec: address bit 2. -/
def RegisterAddress.a2 (r : RegisterAddress) : Bool := r.lsb.testBit 2

/-- Modelled from the spec: address bit 3. -/
def RegisterAddress.a3 (r : RegisterAddress) : Bool := r.lsb.testBit 3

/-- Modelled from the spec: the two address bits 2-3 in place. -/
def RegisterAddress.a2_and_3 (r : RegisterAddress) : Nat := r.lsb &&& 0b1100

/-- `TransferDirection` in polyfill.rs. -/
inductive TransferDirection
  | Read
  | Write
deriving DecidableEq, Repr

/-- `TransferDirection::swd_response_length`. -/
def TransferDirection.swd_response_length : TransferDirection → Nat
  | .Read => 8 + 3 + 32 + 1 + 2
  | .Write => 8 + 3 + 2 + 32 + 1

/-- `TransferType` in polyfill.rs. -/
inductive TransferType
  | Read
  | Write (value : Nat)
deriving DecidableEq, Repr

/-- `DapTransfer` in polyfill.rs; `value` is a `u32` modelled as `Nat`. -/
structure DapTransfer where
  address : RegisterAddress
  direction : TransferDirection
  value : Nat
  status : TransferStatus
  idle_cycles_after : Nat
deriving DecidableEq, Repr

/-- `DapTransfer::read`. -/
def DapTransfer.read (address : RegisterAddress) : DapTransfer :=
  { address := address
    direction := TransferDirection.Read
    value := 0
    status := TransferStatus.Pending
    idle_cycles_after := 0 }

/-- `DapTransfer::write`. -/
def DapTransfer.write (address : RegisterAddress) (value : Nat) : DapTransfer :=
  { address := address
    value := value
    direction := TransferDirection.Write
    status := TransferStatus.Pending
    idle_cycles_after := 0 }

/-- `DapTransfer::transfer_type`. -/
def DapTransfer.transfer_type (t : DapTransfer) : TransferType :=
  match t.direction with
  | TransferDirection.Read => TransferType.Read
  | TransferDirection.Write => TransferType.Write t.value

def DapTransfer.is_ap_read (t : DapTransfer) : Bool :=
  t.address.is_ap && t.direction == TransferDirection.Read

def DapTransfer.is_ap_write (t : DapTransfer) : Bool :=
  t.address.is_ap && t.direction == TransferDirection.Write

def DapTransfer.is_write (t : DapTransfer) : Bool :=
  t.direction == TransferDirection.Write

def DapTransfer.is_abort (t : DapTransfer) : Bool :=
  t.address == RegisterAddress.DpRegister Abort.ADDRESS
    && t.direction == TransferDirection.Write

def DapTransfer.is_rdbuff (t : DapTransfer) : Bool :=
  t.address == RegisterAddress.DpRegister RdBuff.ADDRESS
    && t.direction == TransferDirection.Read

/-- `DapTransfer::swd_response_length`. -/
def DapTransfer.swd_response_length (t : DapTransfer) : Nat :=
  t.direction.swd_response_length + t.idle_cycles_after

/-- `DapTransfer::must_not_stall`. -/
def DapTransfer.must_not_stall (t : DapTransfer) : Bool :=
  let abort_write := t.is_abort
  let dpidr_read := t.address == RegisterAddress.DpRegister DPIDR.ADDRESS
    && t.direction == TransferDirection.Read
  let ctrl_stat_read := t.address == RegisterAddress.DpRegister Ctrl.ADDRESS
    && t.direction == TransferDirection.Read
  abort_write || dpidr_read || ctrl_stat_read

/-- One item of an SWD I/O sequence (`probe::IoSequenceItem`). -/
inductive IoSequenceItem
  | Output (b : Bool)
  | Input
deriving DecidableEq, Repr

/-- Popcount of a `u32` (`u32::count_ones` on the 32-bit value). -/
def count_ones (v : Nat) : Nat := (List.range 32).countP (fun i => v.testBit i)

/-- `build_swd_transfer`: the sequential `add_output`/`add_input` pushes of the
source are written down as one list. -/
def build_swd_transfer (address : RegisterAddress) (direction : TransferType) :
    List IoSequenceItem :=
  let ap_n_dp := address.is_ap
  let direction_bit := direction == TransferType.Read
  let a2 := address.a2
  let a3 := address.a3
  [IoSequenceItem.Output true,
   IoSequenceItem.Output ap_n_dp,
   IoSequenceItem.Output direction_bit,
   IoSequenceItem.Output a2,
   IoSequenceItem.Output a3,
   IoSequenceItem.Output (((ap_n_dp ^^ direction_bit) ^^ a2) ^^ a3),
   IoSequenceItem.Output false,
   IoSequenceItem.Output true,
   IoSequenceItem.Input,
   IoSequenceItem.Input, IoSequenceItem.Input, IoSequenceItem.Input] ++
  (match direction with
   | TransferType.Write value =>
     IoSequenceItem.Input ::
       ((List.range 32).map (fun i => IoSequenceItem.Output (value &&& (1 <<< i) != 0)) ++
        [IoSequenceItem.Output (count_ones value % 2 == 1)])
   | TransferType.Read =>
     List.replicate 32 IoSequenceItem.Input ++ [IoSequenceItem.Input, IoSequenceItem.Input])

/-- `DapTransfer::io_sequence`: the transfer frame followed by
`idle_cycles_after` zero-driven idle bits. -/
def DapTransfer.io_sequence (t : DapTransfer) : List IoSequenceItem :=
  build_swd_transfer t.address t.transfer_type ++
    List.replicate t.idle_cycles_after (IoSequenceItem.Output false)

/-- Modelled from the spec: `bits_to_byte` from the probe transport layer (the
function lives outside the sources under verification) reassembles up to 32
bits into a word, LSB first. -/
def bits_to_byte (bits : List Bool) : Nat :=
  ((bits.take 32).enum).foldl (fun acc ib => if ib.2 then acc ||| (1 <<< ib.1) else acc) 0

/-- `parse_swd_response`.  Rust splits the slice at 3 and indexes bit 32 of the
payload; indexing past the end of the list is modelled by reading `false`
(every run proved below supplies full-length responses). -/
def parse_swd_response (resp : List Bool) (direction : TransferDirection) :
    Except DapError Nat :=
  let response := resp.drop 3
  match resp.getD 0 false, resp.getD 1 false, resp.getD 2 false with
  | true, true, true => Except.error DapError.NoAcknowledge
  | false, true, false => Except.error DapError.WaitResponse
  | false, false, true => Except.error DapError.FaultResponse
  | true, false, false =>
    match direction with
    | TransferDirection.Read =>
      let value := bits_to_byte response
      if count_ones value % 2 == (response.getD 32 false).toNat then Except.ok value
      else Except.error DapError.IncorrectParity
    | TransferDirection.Write => Except.ok 0
  | _, _, _ => Except.error (DapError.Protocol WireProtocol.Swd)

-- JTAG constants from polyfill.rs.
def JTAG_ABORT_VALUE : Nat := 0x8
def JTAG_ABORT_IR_VALUE : Nat := 0x8
def JTAG_DEBUG_PORT_IR_VALUE : Nat := 0xA
def JTAG_ACCESS_PORT_IR_VALUE : Nat := 0xB
def JTAG_STATUS_WAIT : Nat := 0x1
def JTAG_STATUS_OK : Nat := 0x2
def JTAG_DR_BIT_LENGTH : Nat := 35

/-- `build_jtag_payload_and_address`; the payload is a `u64` holding 35 bits. -/
def build_jtag_payload_and_address (transfer : DapTransfer) : Nat × Nat :=
  if transfer.is_abort then (JTAG_ABORT_VALUE, JTAG_ABORT_IR_VALUE)
  else
    let address :=
      if transfer.address.is_ap then JTAG_ACCESS_PORT_IR_VALUE else JTAG_DEBUG_PORT_IR_VALUE
    let port_address := transfer.address.a2_and_3
    let payload : Nat := 0
    let payload := payload ||| (transfer.value <<< 3)
    let payload := payload ||| ((port_address &&& 0b1000) >>> 1)
    let payload := payload ||| ((port_address &&& 0b0100) >>> 1)
    let payload := payload |||
      (if transfer.direction == TransferDirection.Read then 1 else 0)
    (payload, address)

/-- `parse_jtag_response`: load a little-endian word from the response bits. -/
def parse_jtag_response (data : List Bool) : Nat :=
  data.enum.foldl (fun acc ib => if ib.2 then acc ||| (1 <<< ib.1) else acc) 0

/-- The status mapping of `perform_jtag_transfer` (match on bits [2:0]). -/
def jtag_transfer_status (status : Nat) : TransferStatus :=
  if status == JTAG_STATUS_WAIT then TransferStatus.Failed DapError.WaitResponse
  else if status == JTAG_STATUS_OK then TransferStatus.Ok
  else TransferStatus.Failed DapError.NoAcknowledge

/-- Transport-level errors (`DebugProbeError`); the engine never inspects their
payload, so a small enumeration suffices. -/
inductive DebugProbeError
  | Other
  | Unsupported
deriving DecidableEq, Repr

/-- The error outcomes of an engine run: a Rust panic, a transport error, or a
DAP error (the latter two are the two inhabited arms of `ArmError` the engine
produces). -/
inductive EngineError
  | panic
  | probeErr (e : DebugProbeError)
  | dapErr (e : DapError)
deriving DecidableEq, Repr

/-- `probe::SwdSettings`, the fields the engine reads. -/
structure SwdSettings where
  num_idle_cycles_between_writes : Nat
  idle_cycles_before_write_verify : Nat
  idle_cycles_after_transfer : Nat
  num_retries_after_wait : Nat
  max_retry_idle_cycles_after_wait : Nat
deriving DecidableEq, Repr

/-- One queued JTAG DR write (`probe::JtagWriteCommand`): the IR address and the
35-bit payload (the `data` bytes are the little-endian bytes of `payload`).
The result transform of the source is a closure determined entirely by the IR
address; it is applied by `execBatch` below. -/
structure JtagCmd where
  address : Nat
  payload : Nat
deriving DecidableEq, Repr

/-- `probe::CommandResult`, the two arms the engine uses. -/
inductive CommandResult
  | None
  | U32 (v : Nat)
deriving DecidableEq, Repr

instance {ε α : Type} [DecidableEq ε] [DecidableEq α] : DecidableEq (Except ε α) := fun x y =>
  match x, y with
  | Except.ok a, Except.ok b =>
    if h : a = b then isTrue (by rw [h]) else isFalse (by intro hh; cases hh; exact h rfl)
  | Except.ok _, Except.error _ => isFalse (by intro h; cases h)
  | Except.error _, Except.ok _ => isFalse (by intro h; cases h)
  | Except.error e, Except.error f =>
    if h : e = f then isTrue (by rw [h]) else isFalse (by intro hh; cases hh; exact h rfl)

/-- The probe, as the engine sees it: the active protocol, the SWD settings,
the idle-cycle setting, and scripted oracles for the three I/O primitives
(`swd_io`, `write_register`, `write_register_batch`).  Every call consumes the
head of its script; an exhausted script behaves as a transport failure.
`jtag_trace` records each single `write_register` call for observability. -/
structure ProbeState where
  protocol : WireProtocol
  settings : SwdSettings
  idle_cycles : Nat
  swd_script : List (Except DebugProbeError (List Bool))
  jtag_script : List (Except DebugProbeError (List Bool))
  batch_script : List (List (Except DebugProbeError (List Bool)))
  jtag_trace : List JtagCmd
deriving DecidableEq, Repr

/-- State-and-error monad threading the probe through the engine. -/
def EngineM (α : Type) : Type := ProbeState → ProbeState × Except EngineError α

instance : Monad EngineM where
  pure a := fun p => (p, Except.ok a)
  bind x f := fun p =>
    match x p with
    | (p', Except.ok a) => f a p'
    | (p', Except.error e) => (p', Except.error e)

namespace EngineM

def throw (e : EngineError) : EngineM α := fun p => (p, Except.error e)

def getState : EngineM ProbeState := fun p => (p, Except.ok p)

/-- `probe.swd_io(..)`: scripted; the request is only consumed for its length
on the wire, the scripted response stands for whatever the probe sampled. -/
def swd_io (request : List IoSequenceItem) : EngineM (List Bool) := fun p =>
  match p.swd_script with
  | [] => (p, Except.error (EngineError.probeErr DebugProbeError.Other))
  | r :: rest =>
    match r with
    | Except.ok bits => ({ p with swd_script := rest }, Except.ok bits)
    | Except.error e => ({ p with swd_script := rest }, Except.error (EngineError.probeErr e))

/-- `probe.set_idle_cycles(..)`: infallible in every probe implementation in
the sources (plain field assignment), so modelled as such. -/
def set_idle_cycles (n : Nat) : EngineM Unit := fun p =>
  ({ p with idle_cycles := n }, Except.ok ())

/-- `probe.idle_cycles()`. -/
def read_idle_cycles : EngineM Nat := fun p => (p, Except.ok p.idle_cycles)

/-- `probe.write_register(address, data, len)`: scripted; the issued command is
recorded in `jtag_trace`, and the `Result` is returned as a value because
`perform_jtag_transfer` holds it across the idle-cycle restore. -/
def write_register (address : Nat) (payload : Nat) :
    EngineM (Except DebugProbeError (List Bool)) := fun p =>
  match p.jtag_script with
  | [] =>
    ({ p with jtag_trace := p.jtag_trace ++ [⟨address, payload⟩] },
      Except.ok (Except.error DebugProbeError.Other))
  | r :: rest =>
    ({ p with jtag_script := rest, jtag_trace := p.jtag_trace ++ [⟨address, payload⟩] },
      Except.ok r)

end EngineM

/-- `perform_jtag_transfer`. -/
def perform_jtag_transfer (transfer : DapTransfer) : EngineM (Nat × TransferStatus) := do
  let (payload, address) := build_jtag_payload_and_address transfer
  let idle_cycles ← EngineM.read_idle_cycles
  EngineM.set_idle_cycles (min transfer.idle_cycles_after 255)
  let result ← EngineM.write_register address payload
  EngineM.set_idle_cycles idle_cycles
  match result with
  | Except.error e => EngineM.throw (EngineError.probeErr e)
  | Except.ok bits =>
    let received := parse_jtag_response bits
    if transfer.is_abort then pure (0, TransferStatus.Ok)
    else
      let received_value := (received >>> 3) % 2 ^ 32
      let status := received &&& 0b111
      pure (received_value, jtag_transfer_status status)

/-- `DapTransfer::jtag_write` (its body duplicates
`build_jtag_payload_and_address` verbatim in the source). -/
def DapTransfer.jtag_write (t : DapTransfer) : JtagCmd :=
  let (payload, address) := build_jtag_payload_and_address t
  ⟨address, payload⟩

/-- A placeholder transfer used as the default of panic-free list reads whose
indices are separately proved in bounds. -/
def dummyTransfer : DapTransfer :=
  DapTransfer.read (RegisterAddress.DpRegister RdBuff.ADDRESS)

/-- The command queue built by `perform_jtag_transfers`: one DR write per
transfer, plus the bookkeeping reads (RDBUFF flush, CTRL/STAT, final RDBUFF). -/
def jtagQueue (transfers : List DapTransfer) : List JtagCmd :=
  let last := transfers.getLastD dummyTransfer
  let base := transfers.map DapTransfer.jtag_write
  let base := base ++
    (if !last.is_abort && !last.is_rdbuff then
      [(DapTransfer.read (RegisterAddress.DpRegister RdBuff.ADDRESS)).jtag_write]
    else [])
  base ++
    (if !last.is_abort then
      [(DapTransfer.read (RegisterAddress.DpRegister Ctrl.ADDRESS)).jtag_write,
       (DapTransfer.read (RegisterAddress.DpRegister RdBuff.ADDRESS)).jtag_write]
    else [])

/-- The two ways `write_register_batch` can stop early: a command transform
reporting a DAP failure, or a transport error. -/
inductive BatchError
  | dap (e : DapError)
  | probe (e : DebugProbeError)
deriving DecidableEq, Repr

/-- Modelled from the spec: `write_register_batch` (probe transport layer,
outside the sources under verification) executes the queued commands in order,
applying each command's result transform - the closure of
`DapTransfer::jtag_write`, embedded here by matching on the IR address - and
stops at the first error, returning the results gathered so far together with
that error. -/
def execBatch : List (Except DebugProbeError (List Bool)) → List JtagCmd →
    Except (List CommandResult × BatchError) (List CommandResult)
  | _, [] => Except.ok []
  | [], _ :: _ => Except.error ([], BatchError.probe DebugProbeError.Other)
  | r :: rs, c :: cs =>
    match r with
    | Except.error e => Except.error ([], BatchError.probe e)
    | Except.ok bits =>
      if c.address == JTAG_ABORT_IR_VALUE then
        match execBatch rs cs with
        | Except.ok results => Except.ok (CommandResult.None :: results)
        | Except.error (results, e) => Except.error (CommandResult.None :: results, e)
      else
        let received := parse_jtag_response bits
        let received_value := (received >>> 3) % 2 ^ 32
        let status := received &&& 0b111
        if status == JTAG_STATUS_OK then
          match execBatch rs cs with
          | Except.ok results => Except.ok (CommandResult.U32 received_value :: results)
          | Except.error (results, e) =>
            Except.error (CommandResult.U32 received_value :: results, e)
        else if status == JTAG_STATUS_WAIT then
          Except.error ([], BatchError.dap DapError.WaitResponse)
        else Except.error ([], BatchError.dap DapError.NoAcknowledge)

/-- `probe.write_register_batch(&queue)`: scripted per-command raw responses. -/
def EngineM.write_register_batch (queue : List JtagCmd) :
    EngineM (Except (List CommandResult × BatchError) (List CommandResult)) := fun p =>
  match p.batch_script with
  | [] => (p, Except.ok (execBatch [] queue))
  | s :: rest => ({ p with batch_script := rest }, Except.ok (execBatch s queue))

/-- One iteration body of the result-shifting loop of
`perform_jtag_transfers`: transfer `i` takes the typed result of queued
command `i + 1` (`take(..).unwrap().into_u32()` panics when that handle has no
`U32` result). -/
def shiftStep (jtag_results : List CommandResult) (i : Nat) (t : DapTransfer) :
    Except EngineError DapTransfer :=
  if t.is_abort || t.is_rdbuff then Except.ok { t with status := TransferStatus.Ok }
  else if t.status == TransferStatus.Ok && t.direction == TransferDirection.Read then
    match jtag_results[i + 1]? with
    | some (CommandResult.U32 v) => Except.ok { t with value := v }
    | _ => Except.error EngineError.panic
  else Except.ok t

/-- The result-shifting loop of `perform_jtag_transfers` (`skip(1)` over the
remaining result handles); `iters` is the number of remaining handles minus
one. -/
def shiftLoop (jtag_results : List CommandResult) :
    Nat → Nat → List DapTransfer → Except EngineError (List DapTransfer)
  | i, iters, [] => if iters ≤ i then Except.ok [] else Except.error EngineError.panic
  | i, iters, t :: rest =>
    if iters ≤ i then Except.ok (t :: rest)
    else
      match shiftStep jtag_results i t with
      | Except.error e => Except.error e
      | Except.ok t' =>
        match shiftLoop jtag_results (i + 1) iters rest with
        | Except.error e => Except.error e
        | Except.ok rest' => Except.ok (t' :: rest')

/-- The final stage of `perform_jtag_transfers` (after the idle-cycle setting
has been restored): the result-shifting loop followed by the CTRL/STAT
sticky-error inspection and downgrade. -/
def jtagFinish (jtag_results : List CommandResult) (ctrl_value : Option Nat)
    (iters : Nat) (transfers1 : List DapTransfer) : EngineM (List DapTransfer) :=
  match shiftLoop jtag_results 0 iters transfers1 with
  | Except.error e => EngineM.throw e
  | Except.ok transfers2 =>
    match ctrl_value with
    | none => pure transfers2
    | some h =>
      match jtag_results[h]? with
      | some (CommandResult.U32 received_value) =>
        if Ctrl.sticky_err received_value then do
          let _ ← perform_jtag_transfer
            (DapTransfer.write (RegisterAddress.DpRegister Ctrl.ADDRESS) received_value)
          pure (transfers2.map (fun t =>
            if t.status == TransferStatus.Ok then
              { t with status := TransferStatus.Failed DapError.FaultResponse }
            else t))
        else pure transfers2
      | _ => pure transfers2

/-- `perform_jtag_transfers`. -/
def perform_jtag_transfers (transfers : List DapTransfer) : EngineM (List DapTransfer) := do
  if transfers.isEmpty then EngineM.throw EngineError.panic
  else do
  let queue := jtagQueue transfers
  let last_is_abort := (transfers.getLastD dummyTransfer).is_abort
  let max_idle_cycles := (transfers.map (fun t => t.idle_cycles_after)).foldr max 0
  let idle_cycles ← EngineM.read_idle_cycles
  EngineM.set_idle_cycles (min max_idle_cycles 255)
  let batch ← EngineM.write_register_batch queue
  let (status_responses, jtag_results) ←
    match batch with
    | Except.ok r => pure (List.replicate queue.length TransferStatus.Ok, r)
    | Except.error (results, e) =>
      let current_idx := results.length
      match e with
      | BatchError.dap failure =>
        pure (List.replicate current_idx TransferStatus.Ok ++
                List.replicate (queue.length - current_idx) (TransferStatus.Failed failure),
              results ++ [CommandResult.None])
      | BatchError.probe error =>
        -- `Error::Probe(error) => return Err(error)`: note this exits without
        -- restoring the idle-cycle setting.
        EngineM.throw (EngineError.probeErr error)
  EngineM.set_idle_cycles idle_cycles
  let transfers1 := transfers.enum.map (fun it =>
    { it.2 with status := status_responses.getD (it.1 + 1) TransferStatus.Ok })
  -- Pluck off the extra 2 result handles used for error checking; the second
  -- pop (the CTRL/STAT read command, at queue index `queue.length - 2`) is
  -- kept as `ctrl_value`.
  let (ctrl_value, handle_count) :=
    if !last_is_abort then (some (queue.length - 2), queue.length - 2)
    else (none, queue.length)
  jtagFinish jtag_results ctrl_value (handle_count - 1) transfers1

/-- The per-transfer status/value assignment loop of `perform_swd_transfers`.
`result_bits` always starts at the current transfer's frame; the response is
parsed from its 9th bit on. -/
def swdAssignLoop (result_bits : List Bool) : List DapTransfer → List DapTransfer
  | [] => []
  | t :: rest =>
    let t' :=
      match parse_swd_response (result_bits.drop 8) t.direction with
      | Except.ok v => { t with value := v, status := TransferStatus.Ok }
      | Except.error e => { t with status := TransferStatus.Failed e }
    t' :: swdAssignLoop (result_bits.drop t.swd_response_length) rest

/-- `perform_swd_transfers`. -/
def perform_swd_transfers (transfers : List DapTransfer) : EngineM (List DapTransfer) := do
  let io_sequence := transfers.foldl (fun acc t => acc ++ t.io_sequence) []
  let result ← EngineM.swd_io io_sequence
  pure (swdAssignLoop result transfers)

/-- `perform_raw_transfers`. -/
def perform_raw_transfers (transfers : List DapTransfer) : EngineM (List DapTransfer) := do
  let p ← EngineM.getState
  match p.protocol with
  | WireProtocol.Swd => perform_swd_transfers transfers
  | WireProtocol.Jtag => perform_jtag_transfers transfers

/-- `write_dp_register` (the generic register is already rendered to its `u32`
value by the caller). -/
def write_dp_register (address : DpRegisterAddress) (value : Nat) : EngineM Unit := do
  let p ← EngineM.getState
  let transfer :=
    { DapTransfer.write (RegisterAddress.DpRegister address) value with
      idle_cycles_after :=
        p.settings.idle_cycles_before_write_verify + p.settings.num_idle_cycles_between_writes }
  let ts ← perform_raw_transfers [transfer]
  match (ts.getD 0 dummyTransfer).status with
  | TransferStatus.Failed e => EngineM.throw (EngineError.dapErr e)
  | _ => pure ()

/-- `clear_overrun_and_sticky_err`: ABORT with ORUNERRCLR and STKERRCLR set. -/
def clear_overrun_and_sticky_err : EngineM Unit :=
  write_dp_register Abort.ADDRESS (abortValue false true true)

/-- The walk over an executed chunk in `perform_raw_transfers_retry`: count
leading `Ok`s; report whether the first failure (if any) is a WAIT. -/
inductive WalkOutcome
  | allOk
  | wait (leading : Nat)
  | other (leading : Nat)
deriving DecidableEq, Repr

def walkChunk : List DapTransfer → WalkOutcome
  | [] => WalkOutcome.allOk
  | t :: rest =>
    match t.status with
    | TransferStatus.Ok =>
      match walkChunk rest with
      | WalkOutcome.allOk => WalkOutcome.allOk
      | WalkOutcome.wait k => WalkOutcome.wait (k + 1)
      | WalkOutcome.other k => WalkOutcome.other (k + 1)
    | TransferStatus.Failed DapError.WaitResponse => WalkOutcome.wait 0
    | _ => WalkOutcome.other 0

/-- The `'transfer` loop of `perform_raw_transfers_retry`, with the remaining
retry budget as fuel.  The mutable slice is threaded as
`transfers.take successful ++ executed chunk`. -/
def retryLoop : Nat → List DapTransfer → Nat → Nat → EngineM (List DapTransfer)
  | 0, transfers, _, _ => do
    -- Timeout: abort transactions with DAPABORT, then report Ok; the caller
    -- handles errors via the transfer statuses.
    write_dp_register Abort.ADDRESS (abortValue true false false)
    pure transfers
  | fuel + 1, transfers, successful_transfers, idle_cycles => do
    let p ← EngineM.getState
    let chunk := transfers.drop successful_transfers
    if chunk.isEmpty then EngineM.throw EngineError.panic
    else do
    let chunk' ← perform_raw_transfers chunk
    match walkChunk chunk' with
    | WalkOutcome.allOk =>
      let successful' := successful_transfers + chunk'.length
      let transfers' := transfers.take successful_transfers ++ chunk'
      if successful' == transfers'.length then pure transfers'
      else retryLoop fuel transfers' successful' idle_cycles
    | WalkOutcome.wait k => do
      clear_overrun_and_sticky_err
      -- Increase idle cycles of every write in the (whole) chunk.
      let chunk'' := chunk'.map (fun t =>
        if t.is_write then { t with idle_cycles_after := t.idle_cycles_after + idle_cycles }
        else t)
      let transfers' := transfers.take successful_transfers ++ chunk''
      retryLoop fuel transfers' (successful_transfers + k)
        (min p.settings.max_retry_idle_cycles_after_wait (2 * idle_cycles))
    | WalkOutcome.other _ =>
      pure (transfers.take successful_transfers ++ chunk')

/-- `perform_raw_transfers_retry`. -/
def perform_raw_transfers_retry (transfers : List DapTransfer) : EngineM (List DapTransfer) := do
  let p ← EngineM.getState
  retryLoop p.settings.num_retries_after_wait transfers 0
    (max 1 p.settings.num_idle_cycles_between_writes)

/-- Modelled from the spec: the WAIT-retry loop as the (amended) claim
narrates it, carried on an explicit done/todo split of the batch: `done`
holds the transfers already executed successfully, `todo` the rest. Each
round executes `todo`; on all-Ok or a non-WAIT failure it stops with Ok; on
the first WAIT (at position `k` of the executed chunk) it issues the
sticky-clear ABORT, adds `idle_cycles` to `idle_cycles_after` of every write
in the WHOLE executed chunk (the amended bump set), doubles `idle_cycles`
capped at `max_retry_idle_cycles_after_wait`, and resumes from the failing
transfer; on exhaustion it issues a DAPABORT and returns Ok. -/
def retrySpec : Nat → List DapTransfer → List DapTransfer → Nat →
    EngineM (List DapTransfer)
  | 0, done, todo, _ => do
    write_dp_register Abort.ADDRESS (abortValue true false false)
    pure (done ++ todo)
  | fuel + 1, done, todo, idle_cycles => do
    let p ← EngineM.getState
    if todo.isEmpty then EngineM.throw EngineError.panic
    else do
    let chunk' ← perform_raw_transfers todo
    match walkChunk chunk' with
    | WalkOutcome.allOk => pure (done ++ chunk')
    | WalkOutcome.wait k => do
      clear_overrun_and_sticky_err
      let chunk'' := chunk'.map (fun t =>
        if t.is_write then { t with idle_cycles_after := t.idle_cycles_after + idle_cycles }
        else t)
      retrySpec fuel (done ++ chunk''.take k) (chunk''.drop k)
        (min p.settings.max_retry_idle_cycles_after_wait (2 * idle_cycles))
    | WalkOutcome.other _ => pure (done ++ chunk')

/-- Modelled from the spec: the WAIT-retry loop exactly as the claim states
it, differing from `retrySpec` only in the bump set of the `wait` branch: the
idle-cycle increase touches only the transfers at and after the failing one
(position `k` of the executed chunk), not the leading already-successful
ones. -/
def retryClaimed : Nat → List DapTransfer → List DapTransfer → Nat →
    EngineM (List DapTransfer)
  | 0, done, todo, _ => do
    write_dp_register Abort.ADDRESS (abortValue true false false)
    pure (done ++ todo)
  | fuel + 1, done, todo, idle_cycles => do
    let p ← EngineM.getState
    if todo.isEmpty then EngineM.throw EngineError.panic
    else do
    let chunk' ← perform_raw_transfers todo
    match walkChunk chunk' with
    | WalkOutcome.allOk => pure (done ++ chunk')
    | WalkOutcome.wait k => do
      clear_overrun_and_sticky_err
      let chunk'' := chunk'.take k ++ (chunk'.drop k).map (fun t =>
        if t.is_write then { t with idle_cycles_after := t.idle_cycles_after + idle_cycles }
        else t)
      retryClaimed fuel (done ++ chunk''.take k) (chunk''.drop k)
        (min p.settings.max_retry_idle_cycles_after_wait (2 * idle_cycles))
    | WalkOutcome.other _ => pure (done ++ chunk')

/-- `OriginalTransfer` in `perform_transfers`. -/
structure OriginalTransfer where
  index : Nat
  response_in_next : Bool
deriving DecidableEq, Repr

def dummyOrig : OriginalTransfer := ⟨0, false⟩

/-- Two transfers agree on everything except the idle-cycle padding: being "a
copy" in the planner's extended batch. -/
def sameCore (a b : DapTransfer) : Prop :=
  a.address = b.address ∧ a.direction = b.direction ∧ a.value = b.value ∧ a.status = b.status

/-- `final_transfers.last_mut().unwrap().idle_cycles_after += extra`; the empty
case is unreachable from the call sites (the accumulator is non-empty). -/
def bumpLast (extra : Nat) : List DapTransfer → List DapTransfer
  | [] => []
  | [t] => [{ t with idle_cycles_after := t.idle_cycles_after + extra }]
  | t :: rest => t :: bumpLast extra rest

/-- The idle-cycle adjustment applied to each caller transfer as it is copied
into the extended batch (`perform_transfers`, the `is_write` clone). -/
def planAdjust (st : SwdSettings) (transfer : DapTransfer) : DapTransfer :=
  if transfer.is_write then
    { transfer with idle_cycles_after := st.num_idle_cycles_between_writes }
  else transfer

/-- The "extra RDBUFF read needed" decision of the planning loop, together
with the extra idle cycles to add before it (`need_extra` /
`extra_idle_cycles` in `perform_transfers`; the lookahead `rest` is the list
of caller transfers after the current one). -/
def planExtra (st : SwdSettings) (transfer : DapTransfer) (rest : List DapTransfer) :
    Bool × Nat :=
  match rest with
  | next :: _ =>
    if transfer.is_ap_read && !next.is_ap_read then (true, 0)
    else if transfer.is_ap_write && next.must_not_stall then
      (true, st.idle_cycles_before_write_verify)
    else (false, st.idle_cycles_before_write_verify)
  | [] =>
    let extra :=
      if !(transfer.is_write && !transfer.is_abort) then 0
      else st.idle_cycles_before_write_verify
    (transfer.is_ap_read || (transfer.is_write && !transfer.is_abort), extra)

/-- One step of the extended-batch construction: push the adjusted copy, and
for SWD append the extra RDBUFF read (with its idle bump) when needed. -/
def planFaccStep (st : SwdSettings) (wire_protocol : WireProtocol)
    (transfer : DapTransfer) (rest : List DapTransfer) (facc : List DapTransfer) :
    List DapTransfer :=
  let f1 := facc ++ [planAdjust st transfer]
  if wire_protocol == WireProtocol.Jtag then f1
  else if (planExtra st transfer rest).1 then
    bumpLast (planExtra st transfer rest).2 f1 ++
      [DapTransfer.read (RegisterAddress.DpRegister RdBuff.ADDRESS)]
  else f1

/-- The `response_in_next` flag recorded for a caller transfer
(`OriginalTransfer` construction in `perform_transfers`): SWD only, for AP
reads and non-ABORT writes. -/
def planRespInNext (wire_protocol : WireProtocol) (transfer : DapTransfer) : Bool :=
  wire_protocol == WireProtocol.Swd &&
    (transfer.is_ap_read || (transfer.is_write && !transfer.is_abort))

/-- The planning loop of `perform_transfers`: builds the extended batch and the
index map, processing the caller's transfers in order with one-element
lookahead. -/
def planLoop (st : SwdSettings) (wire_protocol : WireProtocol) :
    List DapTransfer → List DapTransfer → List OriginalTransfer →
    List DapTransfer × List OriginalTransfer
  | [], final_transfers, result_indices => (final_transfers, result_indices)
  | transfer :: rest, final_transfers, result_indices =>
    planLoop st wire_protocol rest
      (planFaccStep st wire_protocol transfer rest final_transfers)
      (result_indices ++
        [{ index := final_transfers.length
           response_in_next := planRespInNext wire_protocol transfer }])

/-- The planner's promise for the `j`-th caller transfer still to be
processed, relative to accumulators `facc` (extended batch so far) and `iacc`
(index map so far): the recorded flag is exactly `planRespInNext`; the
recorded index points into the final extended batch at a copy of the caller
transfer (same address, direction, value and status); and when the flag is
set, the following slot also exists. -/
def planEntryProp (st : SwdSettings) (wire_protocol : WireProtocol)
    (rest facc : List DapTransfer) (iacc : List OriginalTransfer) (j : Nat) : Prop :=
  ((planLoop st wire_protocol rest facc iacc).2.getD (iacc.length + j) dummyOrig).response_in_next
      = planRespInNext wire_protocol (rest.getD j dummyTransfer)
  ∧ facc.length ≤
      ((planLoop st wire_protocol rest facc iacc).2.getD (iacc.length + j) dummyOrig).index
  ∧ ((planLoop st wire_protocol rest facc iacc).2.getD (iacc.length + j) dummyOrig).index
      < (planLoop st wire_protocol rest facc iacc).1.length
  ∧ sameCore
      ((planLoop st wire_protocol rest facc iacc).1.getD
        ((planLoop st wire_protocol rest facc iacc).2.getD (iacc.length + j) dummyOrig).index
        dummyTransfer)
      (rest.getD j dummyTransfer)
  ∧ (((planLoop st wire_protocol rest facc iacc).2.getD
        (iacc.length + j) dummyOrig).response_in_next = true →
      ((planLoop st wire_protocol rest facc iacc).2.getD (iacc.length + j) dummyOrig).index + 1
        < (planLoop st wire_protocol rest facc iacc).1.length)

/-- The status assignment of the retrieval loop of `perform_transfers`: take
the status at the recorded index; when `response_in_next` is set and that
status is Ok, overwrite with the status of the next slot. -/
def retrieveStatus (o : OriginalTransfer) (final_transfers : List DapTransfer) :
    TransferStatus :=
  let status := (final_transfers.getD o.index dummyTransfer).status
  if o.response_in_next && status == TransferStatus.Ok then
    (final_transfers.getD (o.index + (if o.response_in_next then 1 else 0))
      dummyTransfer).status
  else status

/-- The result retrieval loop of `perform_transfers`
(`transfers.iter_mut().zip(result_indices)`); Rust's indexing into
`final_transfers` is modelled by `getD`, with the indices separately proved in
bounds. -/
def retrieveResults :
    List DapTransfer → List OriginalTransfer → List DapTransfer → List DapTransfer
  | [], _, _ => []
  | _ :: _, [], _ => []
  | t :: ts, o :: os, final_transfers =>
    let response_idx := o.index + (if o.response_in_next then 1 else 0)
    let t' := { t with status := retrieveStatus o final_transfers }
    let t' :=
      if t'.direction == TransferDirection.Read then
        { t' with value := (final_transfers.getD response_idx dummyTransfer).value }
      else t'
    t' :: retrieveResults ts os final_transfers

/-- `perform_transfers`. -/
def perform_transfers (transfers : List DapTransfer) : EngineM (List DapTransfer) := do
  if transfers.isEmpty then EngineM.throw EngineError.panic
  else do
  let p ← EngineM.getState
  let plan := planLoop p.settings p.protocol transfers [] []
  -- Add idle cycles at the end, to ensure the transfer is performed.
  let final_transfers := bumpLast p.settings.idle_cycles_after_transfer plan.1
  let final_transfers ← perform_raw_transfers_retry final_transfers
  pure (retrieveResults transfers plan.2 final_transfers)

/-- The full C1 property for a caller batch `ts` on probe `p`: the planner's
index map has one entry per caller transfer; the flag is set exactly for SWD
AP reads and non-ABORT writes; each recorded index points (within bounds) at
the copy of the caller transfer in the extended batch; the retrieval loop
takes statuses and values from exactly the promised slots of the executed
batch; and `perform_transfers` is the composition of planning, WAIT-retry
execution and retrieval. -/
def C1Statement (p : ProbeState) (ts : List DapTransfer) : Prop :=
  (planLoop p.settings p.protocol ts [] []).2.length = ts.length
  ∧ (∀ j, j < ts.length →
      ((planLoop p.settings p.protocol ts [] []).2.getD j dummyOrig).response_in_next
        = (p.protocol == WireProtocol.Swd &&
            ((ts.getD j dummyTransfer).is_ap_read ||
              ((ts.getD j dummyTransfer).is_write && !(ts.getD j dummyTransfer).is_abort))))
  ∧ (∀ j, j < ts.length →
      ((planLoop p.settings p.protocol ts [] []).2.getD j dummyOrig).index <
        (bumpLast p.settings.idle_cycles_after_transfer
          (planLoop p.settings p.protocol ts [] []).1).length
      ∧ sameCore
          ((bumpLast p.settings.idle_cycles_after_transfer
              (planLoop p.settings p.protocol ts [] []).1).getD
            ((planLoop p.settings p.protocol ts [] []).2.getD j dummyOrig).index
            dummyTransfer)
          (ts.getD j dummyTransfer)
      ∧ (((planLoop p.settings p.protocol ts [] []).2.getD j dummyOrig).response_in_next = true →
          ((planLoop p.settings p.protocol ts [] []).2.getD j dummyOrig).index + 1 <
            (bumpLast p.settings.idle_cycles_after_transfer
              (planLoop p.settings p.protocol ts [] []).1).length))
  ∧ (∀ (F : List DapTransfer) (j : Nat), j < ts.length →
      ((retrieveResults ts (planLoop p.settings p.protocol ts [] []).2 F).getD j
          dummyTransfer).status =
        (if ((planLoop p.settings p.protocol ts [] []).2.getD j dummyOrig).response_in_next = true
            ∧ (F.getD ((planLoop p.settings p.protocol ts [] []).2.getD j dummyOrig).index
                dummyTransfer).status = TransferStatus.Ok
          then (F.getD (((planLoop p.settings p.protocol ts [] []).2.getD j dummyOrig).index + 1)
              dummyTransfer).status
          else (F.getD ((planLoop p.settings p.protocol ts [] []).2.getD j dummyOrig).index
              dummyTransfer).status)
      ∧ ((ts.getD j dummyTransfer).direction = TransferDirection.Read →
          ((retrieveResults ts (planLoop p.settings p.protocol ts [] []).2 F).getD j
              dummyTransfer).value =
            (F.getD (((planLoop p.settings p.protocol ts [] []).2.getD j dummyOrig).index +
              (if ((planLoop p.settings p.protocol ts [] []).2.getD j dummyOrig).response_in_next
                then 1 else 0)) dummyTransfer).value))
  ∧ perform_transfers ts p =
      ((perform_raw_transfers_retry
          (bumpLast p.settings.idle_cycles_after_transfer
            (planLoop p.settings p.protocol ts [] []).1) p).1,
        ((perform_raw_transfers_retry
          (bumpLast p.settings.idle_cycles_after_transfer
            (planLoop p.settings p.protocol ts [] []).1) p).2).map
          (retrieveResults ts (planLoop p.settings p.protocol ts [] []).2))

/-- The per-transfer result collection loop of `raw_read_block`. -/
def readBlockCollect : List DapTransfer → EngineM (List Nat)
  | [] => pure []
  | t :: rest =>
    match t.status with
    | TransferStatus.Ok => do
      let vs ← readBlockCollect rest
      pure (t.value :: vs)
    | TransferStatus.Failed err => do
      if err == DapError.FaultResponse then clear_overrun_and_sticky_err else pure ()
      EngineM.throw (EngineError.dapErr err)
    | TransferStatus.Pending => EngineM.throw EngineError.panic

/-- `RawDapAccess::raw_read_block`; the `&mut [u32]` output slice is rendered
as the returned list (one read per slice element). -/
def raw_read_block (address : RegisterAddress) (count : Nat) : EngineM (List Nat) := do
  let transfers := List.replicate count (DapTransfer.read address)
  let transfers ← perform_transfers transfers
  readBlockCollect transfers

/-- The per-transfer status check loop of `raw_write_block`. -/
def writeBlockCollect : List DapTransfer → EngineM Unit
  | [] => pure ()
  | t :: rest =>
    match t.status with
    | TransferStatus.Ok => writeBlockCollect rest
    | TransferStatus.Failed err => do
      if err == DapError.FaultResponse then clear_overrun_and_sticky_err else pure ()
      EngineM.throw (EngineError.dapErr err)
    | TransferStatus.Pending => EngineM.throw EngineError.panic

/-- `RawDapAccess::raw_write_block`. -/
def raw_write_block (address : RegisterAddress) (values : List Nat) : EngineM Unit := do
  let transfers := values.map (fun v => DapTransfer.write address v)
  let transfers ← perform_transfers transfers
  writeBlockCollect transfers

end Polyfill

namespace Wlink

open Polyfill (DebugProbeError EngineError)

-- Constants from wlink/mod.rs.
def DMI_VALUE_BIT_OFFSET : Nat := 2
def DMI_ADDRESS_BIT_OFFSET : Nat := 34
def DMI_OP_MASK : Nat := 0b11
def DMI_OP_NOP : Nat := 0
def DMI_OP_READ : Nat := 1
def DMI_OP_WRITE : Nat := 2
def REG_BYPASS_ADDRESS : Nat := 0x1f
def REG_IDCODE_ADDRESS : Nat := 0x01
def REG_DTMCS_ADDRESS : Nat := 0x10
def REG_DMI_ADDRESS : Nat := 0x11
def DTMCS_DMIRESET_MASK : Nat := 1 <<< 16
def DTMCS_DMIHARDRESET_MASK : Nat := 1 <<< 17

/-- A vendor USB DMI command (`commands::DmiOp`), as recorded in the trace. -/
inductive DmiCommand
  | read (addr : Nat)
  | write (addr : Nat) (data : Nat)
  | nop
deriving DecidableEq, Repr

/-- The WCH-Link probe: the NOP-after-READ cache, a scripted oracle for the
`(addr, data, op)` tuples the USB device answers, and a trace of the USB
round trips issued. -/
structure WchLinkState where
  last_dmi_read : Option (Nat × Nat × Nat)
  dmi_script : List (Nat × Nat × Nat)
  usb_trace : List DmiCommand
deriving DecidableEq, Repr

/-- `dmi_op_read` / `dmi_op_write` / `dmi_op_nop`: one USB round trip, answered
by the script (an exhausted script is a transport failure). -/
def WchLinkState.dmi_op (s : WchLinkState) (cmd : DmiCommand) :
    WchLinkState × Except EngineError (Nat × Nat × Nat) :=
  match s.dmi_script with
  | [] =>
    ({ s with usb_trace := s.usb_trace ++ [cmd] },
      Except.error (EngineError.probeErr DebugProbeError.Other))
  | r :: rest =>
    ({ s with dmi_script := rest, usb_trace := s.usb_trace ++ [cmd] }, Except.ok r)

/-- A `w`-bit little-endian bit rendering of `n` (the `BitVec` the shim
returns, LSB first). -/
def natBitsLE (w : Nat) (n : Nat) : List Bool := (List.range w).map n.testBit

/-- `JtagAccess::write_register` for `WchLink`.  `register_value` is the
128-bit little-endian word formed from the `data` bytes; the DTMCS branch reads
the same bytes as a `u32`. -/
def wlink_write_register (s : WchLinkState) (address : Nat) (register_value : Nat)
    (len : Nat) : WchLinkState × Except EngineError (List Bool) :=
  if address % 256 == REG_DTMCS_ADDRESS then
    let val := register_value % 2 ^ 32
    if val &&& DTMCS_DMIRESET_MASK != 0 then
      match s.dmi_op (DmiCommand.write 0x10 0x00000000) with
      | (s, Except.error e) => (s, Except.error e)
      | (s, Except.ok _) =>
        match s.dmi_op (DmiCommand.write 0x10 0x00000001) with
        | (s, Except.error e) => (s, Except.error e)
        | (s, Except.ok _) => (s, Except.ok (natBitsLE len 0x71))
    else if val &&& DTMCS_DMIHARDRESET_MASK != 0 then
      (s, Except.error (EngineError.probeErr DebugProbeError.Unsupported))
    else (s, Except.ok (natBitsLE len 0x71))
  else if address % 256 == REG_DMI_ADDRESS then
    if len != 41 then (s, Except.error EngineError.panic)
    else
      let dmi_addr := (register_value >>> DMI_ADDRESS_BIT_OFFSET) &&& 0x3f
      let dmi_value := (register_value >>> DMI_VALUE_BIT_OFFSET) &&& 0xffffffff
      let dmi_op := register_value &&& DMI_OP_MASK
      let dispatched : WchLinkState × Except EngineError (Nat × Nat × Nat) :=
        if dmi_op == DMI_OP_READ then
          match s.dmi_op (DmiCommand.read dmi_addr) with
          | (s, Except.error e) => (s, Except.error e)
          | (s, Except.ok r) => ({ s with last_dmi_read := some r }, Except.ok r)
        else if dmi_op == DMI_OP_NOP then
          -- NOP with zero addr and data returns the last read value.
          if dmi_addr == 0 && dmi_value == 0 then
            match s.last_dmi_read with
            | some r => (s, Except.ok r)
            | none => (s, Except.error EngineError.panic)
          else s.dmi_op DmiCommand.nop
        else if dmi_op == DMI_OP_WRITE then
          -- (A resume write (0x10, 0x40000001) additionally sleeps 10 ms;
          -- wall-clock time is outside this model.)
          s.dmi_op (DmiCommand.write dmi_addr dmi_value)
        else (s, Except.error EngineError.panic)
      match dispatched with
      | (s, Except.error e) => (s, Except.error e)
      | (s, Except.ok (addr, data, op)) =>
        let ret := (addr <<< DMI_ADDRESS_BIT_OFFSET) ||| (data <<< DMI_VALUE_BIT_OFFSET) ||| op
        (s, Except.ok (natBitsLE 128 ret))
  else (s, Except.error EngineError.panic)

end Wlink

namespace Polyfill

/-! ### Specification-side definitions used by the claim theorems -/

/-- The SWD frame template as the spec table (§4.1) states it: start, APnDP,
RnW, A2, A3, request parity, stop, park, sampled turnaround, three sampled ACK
bits, then the direction-specific tail, then the idle padding. -/
def swd_frame_spec (t : DapTransfer) : List IoSequenceItem :=
  [IoSequenceItem.Output true,
   IoSequenceItem.Output t.address.is_ap,
   IoSequenceItem.Output (t.direction == TransferDirection.Read),
   IoSequenceItem.Output t.address.a2,
   IoSequenceItem.Output t.address.a3,
   IoSequenceItem.Output
     (((t.address.is_ap ^^ (t.direction == TransferDirection.Read)) ^^ t.address.a2)
        ^^ t.address.a3),
   IoSequenceItem.Output false,
   IoSequenceItem.Output true,
   IoSequenceItem.Input,
   IoSequenceItem.Input, IoSequenceItem.Input, IoSequenceItem.Input] ++
  (match t.direction with
   | TransferDirection.Write =>
     IoSequenceItem.Input ::
       ((List.range 32).map (fun i => IoSequenceItem.Output (t.value.testBit i)) ++
        [IoSequenceItem.Output (count_ones t.value % 2 == 1)])
   | TransferDirection.Read =>
     List.replicate 32 IoSequenceItem.Input ++ [IoSequenceItem.Input, IoSequenceItem.Input]) ++
  List.replicate t.idle_cycles_after (IoSequenceItem.Output false)

/-- The SWD response table as the spec (§4.3) states it, on an explicit ACK
triple and payload. -/
def swd_response_table (a0 a1 a2 : Bool) (payload : List Bool)
    (direction : TransferDirection) : Except DapError Nat :=
  match a0, a1, a2 with
  | true, true, true => Except.error DapError.NoAcknowledge
  | false, true, false => Except.error DapError.WaitResponse
  | false, false, true => Except.error DapError.FaultResponse
  | true, false, false =>
    match direction with
    | TransferDirection.Read =>
      let value := bits_to_byte payload
      if count_ones value % 2 == (payload.getD 32 false).toNat then Except.ok value
      else Except.error DapError.IncorrectParity
    | TransferDirection.Write => Except.ok 0
  | _, _, _ => Except.error (DapError.Protocol WireProtocol.Swd)

/-- Does a run outcome report a transport (`DebugProbeError`) failure? -/
def isProbeError : Except EngineError α → Bool
  | Except.error (EngineError.probeErr _) => true
  | _ => false

/-! ### Concrete scenario building blocks (used by counterexamples and
witnesses) -/

/-- The OK ACK triple as sampled by the SWD response parser. -/
def ackOK : List Bool := [true, false, false]

/-- The WAIT ACK triple. -/
def ackWAIT : List Bool := [false, true, false]

/-- A full 46-bit probe response to an SWD read: 8 ignored request positions,
then ACK, 32 data bits LSB-first, the data parity bit, and two trailing
positions. -/
def mkReadResp (ack : List Bool) (v : Nat) : List Bool :=
  List.replicate 8 false ++ ack ++ (List.range 32).map v.testBit ++
    [decide (count_ones v % 2 = 1), false, false]

/-- A full `46 + idle`-bit probe response to an SWD write. -/
def mkWriteResp (ack : List Bool) (idle : Nat) : List Bool :=
  List.replicate 8 false ++ ack ++ List.replicate (2 + 32 + 1) false ++
    List.replicate idle false

/-- A 35-bit JTAG DR response carrying `status` in bits [2:0] and `v` above. -/
def mkJtagResp (status v : Nat) : List Bool :=
  (List.range 35).map ((v <<< 3) ||| status).testBit

/-- All-zero settings except five retries; the values that matter to each
scenario are stated at its theorem. -/
def settings0 : SwdSettings := ⟨0, 0, 0, 5, 16⟩

def apRead4 : DapTransfer := DapTransfer.read (RegisterAddress.ApRegister 0 4)

def dpidrRead : DapTransfer := DapTransfer.read (RegisterAddress.DpRegister DPIDR.ADDRESS)

/-- C3 counterexample probe: JTAG, idle-cycle setting 7, and a transport
failure on the first command of the batch. -/
def c3_probe : ProbeState :=
  { protocol := WireProtocol.Jtag
    settings := settings0
    idle_cycles := 7
    swd_script := []
    jtag_script := []
    batch_script := [[Except.error DebugProbeError.Other]]
    jtag_trace := [] }

/-- C2 counterexample probe: SWD with `num_retries_after_wait = 0`; the script
answers the single ABORT write the retry layer issues on exhaustion. -/
def c2_probe : ProbeState :=
  { protocol := WireProtocol.Swd
    settings := ⟨0, 0, 0, 0, 16⟩
    idle_cycles := 0
    swd_script := [Except.ok (mkWriteResp ackOK 0)]
    jtag_script := []
    batch_script := []
    jtag_trace := [] }

/-- C2 witness probe: SWD with one retry budgeted and a script answering one
DP read with an OK response. -/
def c2w_probe : ProbeState :=
  { protocol := WireProtocol.Swd
    settings := ⟨0, 0, 0, 1, 16⟩
    idle_cycles := 0
    swd_script := [Except.ok (mkReadResp ackOK 0)]
    jtag_script := []
    batch_script := []
    jtag_trace := [] }

/-- A DP CTRL/STAT write (idle padding 0), the transfer the C4 scenario
batches twice. -/
def c4_write : DapTransfer := DapTransfer.write (RegisterAddress.DpRegister Ctrl.ADDRESS) 0

def c4_ts : List DapTransfer := [c4_write, c4_write]

/-- C4 probe: SWD, two retries budgeted. The script answers the first chunk
(first write OK, second write WAIT), then the sticky-clear ABORT write, then
the re-executed second write (now carrying one extra idle cycle, hence a
47-bit frame). -/
def c4_probe : ProbeState :=
  { protocol := WireProtocol.Swd
    settings := ⟨0, 0, 0, 2, 16⟩
    idle_cycles := 0
    swd_script := [Except.ok (mkWriteResp ackOK 0 ++ mkWriteResp ackWAIT 0),
      Except.ok (mkWriteResp ackOK 0), Except.ok (mkWriteResp ackOK 1)]
    jtag_script := []
    batch_script := []
    jtag_trace := [] }

/-- C8 probe: JTAG; one batch script entry answering all four queued commands
OK, with the CTRL/STAT slot reading back 32 (sticky_err set), and one scripted
response for the corrective CTRL/STAT write. -/
def c8_probe : ProbeState :=
  { protocol := WireProtocol.Jtag
    settings := settings0
    idle_cycles := 3
    swd_script := []
    jtag_script := [Except.ok (mkJtagResp 2 0)]
    batch_script := [[Except.ok (mkJtagResp 2 5), Except.ok (mkJtagResp 2 7),
      Except.ok (mkJtagResp 2 32), Except.ok (mkJtagResp 2 9)]]
    jtag_trace := [] }

/-! ### Monad unfolding lemmas -/

theorem EngineM.bind_apply (x : EngineM α) (f : α → EngineM β) (p : ProbeState) :
    (x >>= f) p =
      match x p with
      | (p', Except.ok a) => f a p'
      | (p', Except.error e) => (p', Except.error e) := rfl

theorem EngineM.pure_apply (a : α) (p : ProbeState) :
    (pure a : EngineM α) p = (p, Except.ok a) := rfl

theorem EngineM.bind_ok (x : EngineM α) (f : α → EngineM β) (p p1 : ProbeState) (a : α)
    (hx : x p = (p1, Except.ok a)) : (x >>= f) p = f a p1 := by
  rw [EngineM.bind_apply, hx]

theorem EngineM.bind_err (x : EngineM α) (f : α → EngineM β) (p p1 : ProbeState)
    (e : EngineError) (hx : x p = (p1, Except.error e)) :
    (x >>= f) p = (p1, Except.error e) := by
  rw [EngineM.bind_apply, hx]

theorem EngineM.throw_apply (e : EngineError) (p : ProbeState) :
    (EngineM.throw e : EngineM α) p = (p, Except.error e) := rfl

theorem EngineM.getState_apply (p : ProbeState) :
    EngineM.getState p = (p, Except.ok p) := rfl

theorem EngineM.set_idle_cycles_apply (n : Nat) (p : ProbeState) :
    EngineM.set_idle_cycles n p = ({ p with idle_cycles := n }, Except.ok ()) := rfl

theorem EngineM.read_idle_cycles_apply (p : ProbeState) :
    EngineM.read_idle_cycles p = (p, Except.ok p.idle_cycles) := rfl

/-! ### Small bit-level bridge lemmas -/

theorem and_one_shift_ne_zero (v i : Nat) : (v &&& (1 <<< i) != 0) = v.testBit i := by
  have h1 : (1 : Nat) <<< i = 2 ^ i := by rw [Nat.shiftLeft_eq, one_mul]
  rw [h1, Nat.and_two_pow]
  cases h : v.testBit i <;> simp [h, (Nat.two_pow_pos i).ne']

theorem testBit_small (c i : Nat) (h : c < 8) : c.testBit (3 + i) = false := by
  apply Nat.testBit_lt_two_pow
  calc c < 8 := h
    _ = 2 ^ 3 := rfl
    _ ≤ 2 ^ (3 + i) := Nat.pow_le_pow_right (by omega) (by omega)

/-! ### C5 - SWD response parsing -/

/-- C5: `parse_swd_response` returns exactly the outcome given by the spec's
response table, for every ACK triple, payload and direction: (1,1,1) is
NoAcknowledge, (0,1,0) is WaitResponse, (0,0,1) is FaultResponse, (1,0,0) on a
read reassembles the 32 data bits LSB-first guarded by the popcount parity
check (IncorrectParity on mismatch), (1,0,0) on a write returns 0, and every
other ACK pattern is Protocol(Swd). -/
theorem C5_swd_response_parsing (a0 a1 a2 : Bool) (payload : List Bool)
    (direction : TransferDirection) :
    parse_swd_response (a0 :: a1 :: a2 :: payload) direction =
      swd_response_table a0 a1 a2 payload direction := by
  cases a0 <;> cases a1 <;> cases a2 <;> cases direction <;>
    simp [parse_swd_response, swd_response_table, List.getD]

/-! ### C6 - SWD frame shape -/

/-- C6: for every transfer, the bit sequence produced by `build_swd_transfer`
plus the idle padding of `DapTransfer::io_sequence` follows the fixed spec
template (start 1, APnDP, RnW, A2, A3, request parity as the XOR of the four,
stop 0, park 1, a sampled turnaround, three sampled ACK bits, then for writes
a turnaround plus 32 driven data bits LSB-first plus the popcount-parity bit,
and for reads 32 sampled bits plus parity plus turnaround), and its length is
exactly 46 plus `idle_cycles_after`. -/
theorem C6_swd_frame_shape (t : DapTransfer) :
    t.io_sequence = swd_frame_spec t ∧
      t.io_sequence.length = 46 + t.idle_cycles_after := by
  have hdata : ∀ v : Nat,
      (List.range 32).map (fun i => IoSequenceItem.Output (v &&& (1 <<< i) != 0)) =
        (List.range 32).map (fun i => IoSequenceItem.Output (v.testBit i)) := by
    intro v
    apply List.map_congr_left
    intro i _
    rw [and_one_shift_ne_zero]
  constructor
  · cases hd : t.direction <;>
      simp [DapTransfer.io_sequence, build_swd_transfer, swd_frame_spec,
        DapTransfer.transfer_type, hd, hdata]
  · cases hd : t.direction <;>
      simp [DapTransfer.io_sequence, build_swd_transfer, DapTransfer.transfer_type, hd] <;>
      omega

/-! ### C7 - JTAG payload round trip -/

/-- C7: for every non-ABORT transfer with a 32-bit value, decoding the 35-bit
payload built by `build_jtag_payload_and_address` with the response rule
(value from `payload >> 3` truncated to 32 bits, A3 from payload bit 2, A2
from payload bit 1, RnW from bit 0) recovers the address bits, direction and
value exactly; and the status field maps 0x2 to Ok, 0x1 to
Failed(WaitResponse) and everything else to Failed(NoAcknowledge). -/
theorem C7_jtag_payload_roundtrip (t : DapTransfer)
    (habort : t.is_abort = false) (hv : t.value < 2 ^ 32) :
    ((((build_jtag_payload_and_address t).1 >>> 3) % 2 ^ 32 = t.value)
      ∧ (build_jtag_payload_and_address t).1.testBit 2 = t.address.a3
      ∧ (build_jtag_payload_and_address t).1.testBit 1 = t.address.a2
      ∧ (build_jtag_payload_and_address t).1.testBit 0
          = (t.direction == TransferDirection.Read))
    ∧ jtag_transfer_status 0x2 = TransferStatus.Ok
    ∧ jtag_transfer_status 0x1 = TransferStatus.Failed DapError.WaitResponse
    ∧ (∀ s, s ≠ 0x2 → s ≠ 0x1 →
        jtag_transfer_status s = TransferStatus.Failed DapError.NoAcknowledge) := by
  have h8 : (8 : Nat) = 2 ^ 3 := rfl
  have h4 : (4 : Nat) = 2 ^ 2 := rfl
  have ha3 : t.address.a2_and_3.testBit 3 = t.address.a3 := by
    simp [RegisterAddress.a2_and_3, RegisterAddress.a3, Nat.testBit_and,
      show (12 : Nat).testBit 3 = true from by decide]
  have ha2 : t.address.a2_and_3.testBit 2 = t.address.a2 := by
    simp [RegisterAddress.a2_and_3, RegisterAddress.a2, Nat.testBit_and,
      show (12 : Nat).testBit 2 = true from by decide]
  have hshift8 : ∀ b : Bool, (b.toNat * 8) >>> 1 = b.toNat * 4 := by
    intro b; cases b <;> decide
  have hshift4 : ∀ b : Bool, (b.toNat * 4) >>> 1 = b.toNat * 2 := by
    intro b; cases b <;> decide
  have hite : (if t.direction == TransferDirection.Read then (1 : Nat) else 0) =
      (t.direction == TransferDirection.Read).toNat := by
    cases t.direction <;> rfl
  have hpayload : (build_jtag_payload_and_address t).1 =
      (((t.value <<< 3) ||| t.address.a3.toNat * 4) ||| t.address.a2.toNat * 2)
        ||| (t.direction == TransferDirection.Read).toNat := by
    simp only [build_jtag_payload_and_address, habort, Bool.false_eq_true, if_false,
      Nat.zero_or]
    rw [h8, Nat.and_two_pow, h4, Nat.and_two_pow, ← h8, ← h4, hshift8, hshift4, ha3, ha2,
      hite]
  have hv' : ∀ i, 32 ≤ i → t.value.testBit i = false := fun i h =>
    Nat.testBit_lt_two_pow (lt_of_lt_of_le hv (Nat.pow_le_pow_right (by omega) h))
  have hsmall4 : ∀ (b : Bool) (i : Nat), (b.toNat * 4).testBit (3 + i) = false := by
    intro b i; exact testBit_small _ i (by cases b <;> decide)
  have hsmall2 : ∀ (b : Bool) (i : Nat), (b.toNat * 2).testBit (3 + i) = false := by
    intro b i; exact testBit_small _ i (by cases b <;> decide)
  have hsmall1 : ∀ (b : Bool) (i : Nat), b.toNat.testBit (3 + i) = false := by
    intro b i; exact testBit_small _ i (by cases b <;> decide)
  have hbit4 : ∀ (b : Bool) (j : Nat), (b.toNat * 4).testBit j = (b && decide (j = 2)) := by
    intro b j
    cases b
    · simp [Nat.testBit_lt_two_pow, show (0 : Nat) < 2 ^ j from Nat.two_pow_pos j]
    · simp only [Bool.toNat_true, one_mul, Bool.true_and]
      rw [h4, Nat.testBit_two_pow]
      exact decide_eq_decide.mpr (by omega)
  have hbit2 : ∀ (b : Bool) (j : Nat), (b.toNat * 2).testBit j = (b && decide (j = 1)) := by
    intro b j
    cases b
    · simp [Nat.testBit_lt_two_pow, show (0 : Nat) < 2 ^ j from Nat.two_pow_pos j]
    · simp only [Bool.toNat_true, one_mul, Bool.true_and]
      rw [show (2 : Nat) = 2 ^ 1 from rfl, Nat.testBit_two_pow]
      exact decide_eq_decide.mpr (by omega)
  have hbit1 : ∀ (b : Bool) (j : Nat), b.toNat.testBit j = (b && decide (j = 0)) := by
    intro b j
    cases b
    · simp [Nat.testBit_lt_two_pow, show (0 : Nat) < 2 ^ j from Nat.two_pow_pos j]
    · simp only [Bool.toNat_true, Bool.true_and]
      rw [show (1 : Nat) = 2 ^ 0 from rfl, Nat.testBit_two_pow]
      exact decide_eq_decide.mpr (by omega)
  refine ⟨⟨?_, ?_, ?_, ?_⟩, by decide, by decide, ?_⟩
  · apply Nat.eq_of_testBit_eq
    intro i
    rw [hpayload]
    have hge : 3 + i ≥ 3 := by omega
    have hsub : 3 + i - 3 = i := by omega
    simp only [Nat.testBit_mod_two_pow, Nat.testBit_shiftRight, Nat.testBit_or,
      Nat.testBit_shiftLeft, hsmall4, hsmall2, hsmall1, Bool.or_false, hsub, hge]
    by_cases hi : i < 32
    · simp [hi]
    · simp [hi, hv' i (by omega)]
  · rw [hpayload]
    simp only [Nat.testBit_or, Nat.testBit_shiftLeft, hbit4, hbit2, hbit1]
    simp
  · rw [hpayload]
    simp only [Nat.testBit_or, Nat.testBit_shiftLeft, hbit4, hbit2, hbit1]
    simp
  · rw [hpayload]
    simp only [Nat.testBit_or, Nat.testBit_shiftLeft, hbit4, hbit2, hbit1]
    simp
  · intro s h2 h1
    simp [jtag_transfer_status, JTAG_STATUS_WAIT, JTAG_STATUS_OK, h1, h2]

/-- Witness for C7 at a concrete AP read of value 0xC. -/
theorem C7_jtag_payload_roundtrip_witness :
    (DapTransfer.read (RegisterAddress.ApRegister 0 4)).is_abort = false ∧
      (DapTransfer.read (RegisterAddress.ApRegister 0 4)).value < 2 ^ 32 ∧
      ((((build_jtag_payload_and_address
            (DapTransfer.read (RegisterAddress.ApRegister 0 4))).1 >>> 3) % 2 ^ 32 =
          (DapTransfer.read (RegisterAddress.ApRegister 0 4)).value)
        ∧ (build_jtag_payload_and_address
            (DapTransfer.read (RegisterAddress.ApRegister 0 4))).1.testBit 2 =
            (RegisterAddress.ApRegister 0 4).a3
        ∧ (build_jtag_payload_and_address
            (DapTransfer.read (RegisterAddress.ApRegister 0 4))).1.testBit 1 =
            (RegisterAddress.ApRegister 0 4).a2
        ∧ (build_jtag_payload_and_address
            (DapTransfer.read (RegisterAddress.ApRegister 0 4))).1.testBit 0
            = ((DapTransfer.read (RegisterAddress.ApRegister 0 4)).direction
                == TransferDirection.Read)) :=
  ⟨by decide, by decide,
    (C7_jtag_payload_roundtrip (DapTransfer.read (RegisterAddress.ApRegister 0 4))
      (by decide) (by decide)).1⟩

/-! ### C10 - empty block accesses panic -/

/-- C10: for every probe state and register address, `raw_read_block` with an
empty output slice and `raw_write_block` with an empty value slice do not
return Ok: the forwarded batch is empty and `perform_transfers` asserts
non-emptiness, so both runs end in the panic outcome with the probe state
untouched. -/
theorem C10_empty_block_panics (p : ProbeState) (address : RegisterAddress) :
    raw_read_block address 0 p = (p, Except.error EngineError.panic)
      ∧ raw_write_block address [] p = (p, Except.error EngineError.panic) :=
  ⟨rfl, rfl⟩

/-! ### C3 - idle-cycle restoration in the JTAG executor -/

/-- C3 counterexample: when `write_register_batch` fails with a transport
(non-DAP) error mid-batch, `perform_jtag_transfers` returns the error without
restoring the idle-cycle setting: entering with setting 7 it exits with
setting 0 (the temporarily raised batch maximum). -/
theorem C3_idle_restore_counterexample :
    (perform_jtag_transfers [dpidrRead] c3_probe).1.idle_cycles ≠ c3_probe.idle_cycles
      ∧ (perform_jtag_transfers [dpidrRead] c3_probe).2 =
          Except.error (EngineError.probeErr DebugProbeError.Other)
      ∧ (perform_jtag_transfers [dpidrRead] c3_probe).1.idle_cycles = 0
      ∧ c3_probe.idle_cycles = 7 := by
  refine ⟨?_, ?_, ?_, ?_⟩ <;> decide

/-- `perform_jtag_transfer` restores the idle-cycle setting on every exit. -/
theorem perform_jtag_transfer_idle (p : ProbeState) (t : DapTransfer) :
    (perform_jtag_transfer t p).1.idle_cycles = p.idle_cycles := by
  unfold perform_jtag_transfer
  cases hscript : p.jtag_script with
  | nil =>
    simp [EngineM.bind_apply, EngineM.read_idle_cycles_apply,
      EngineM.set_idle_cycles_apply, EngineM.write_register, EngineM.pure_apply,
      EngineM.throw_apply, hscript]
  | cons r rest =>
    cases r with
    | ok bits =>
      by_cases hab : t.is_abort <;>
        simp [EngineM.bind_apply, EngineM.read_idle_cycles_apply,
          EngineM.set_idle_cycles_apply, EngineM.write_register, EngineM.pure_apply,
          EngineM.throw_apply, hscript, hab]
    | error e =>
      simp [EngineM.bind_apply, EngineM.read_idle_cycles_apply,
        EngineM.set_idle_cycles_apply, EngineM.write_register, EngineM.pure_apply,
        EngineM.throw_apply, hscript]

/-- The post-restore stage of the JTAG executor never touches the idle-cycle
setting. -/
theorem jtagFinish_idle (jr : List CommandResult) (cv : Option Nat) (iters : Nat)
    (ts1 : List DapTransfer) (p : ProbeState) :
    (jtagFinish jr cv iters ts1 p).1.idle_cycles = p.idle_cycles := by
  unfold jtagFinish
  cases hs : shiftLoop jr 0 iters ts1 with
  | error e => simp [EngineM.throw_apply]
  | ok transfers2 =>
    cases cv with
    | none => simp [EngineM.pure_apply]
    | some h =>
      cases hg : jr[h]? with
      | none => simp [hg, EngineM.pure_apply]
      | some cr =>
        cases cr with
        | None => simp [hg, EngineM.pure_apply]
        | U32 v =>
          by_cases hsticky : Ctrl.sticky_err v
          · rcases h4 : perform_jtag_transfer
                (DapTransfer.write (RegisterAddress.DpRegister Ctrl.ADDRESS) v) p with ⟨p4, r4⟩
            have hidle := perform_jtag_transfer_idle p
              (DapTransfer.write (RegisterAddress.DpRegister Ctrl.ADDRESS) v)
            rw [h4] at hidle
            simp only at hidle
            cases r4 <;>
              simp [hg, hsticky, EngineM.bind_apply, EngineM.pure_apply, h4, hidle]
          · simp [hg, hsticky, EngineM.pure_apply]

/-- C3 amended: `perform_jtag_transfer` restores the probe's idle-cycle
setting on every exit path; `perform_jtag_transfers` restores it on every exit
path that does not report a transport (`DebugProbeError`) failure (a mid-batch
transport failure returns before the restore). -/
theorem C3_idle_restore_amended :
    (∀ (p : ProbeState) (t : DapTransfer),
        (perform_jtag_transfer t p).1.idle_cycles = p.idle_cycles)
    ∧ (∀ (p : ProbeState) (ts : List DapTransfer),
        isProbeError (perform_jtag_transfers ts p).2 = false →
        (perform_jtag_transfers ts p).1.idle_cycles = p.idle_cycles) := by
  refine ⟨perform_jtag_transfer_idle, ?_⟩
  intro p ts hok
  by_cases hempty : ts.isEmpty
  · simp [perform_jtag_transfers, hempty, EngineM.throw_apply]
  · unfold perform_jtag_transfers
    simp only [hempty, Bool.false_eq_true, if_false]
    cases hbs : p.batch_script with
    | nil =>
      cases hq : execBatch [] (jtagQueue ts) with
      | ok results =>
        simp [EngineM.bind_apply, EngineM.read_idle_cycles_apply,
          EngineM.set_idle_cycles_apply, EngineM.write_register_batch, EngineM.pure_apply,
          hbs, hq, jtagFinish_idle]
      | error pe =>
        obtain ⟨results, e⟩ := pe
        cases e with
        | dap f =>
          simp [EngineM.bind_apply, EngineM.read_idle_cycles_apply,
            EngineM.set_idle_cycles_apply, EngineM.write_register_batch, EngineM.pure_apply,
            hbs, hq, jtagFinish_idle]
        | probe e =>
          exfalso
          rw [perform_jtag_transfers] at hok
          simp [EngineM.bind_apply, EngineM.read_idle_cycles_apply,
            EngineM.set_idle_cycles_apply, EngineM.write_register_batch, EngineM.pure_apply,
            EngineM.throw_apply, hbs, hq, hempty, isProbeError] at hok
    | cons s rest =>
      cases hq : execBatch s (jtagQueue ts) with
      | ok results =>
        simp [EngineM.bind_apply, EngineM.read_idle_cycles_apply,
          EngineM.set_idle_cycles_apply, EngineM.write_register_batch, EngineM.pure_apply,
          hbs, hq, jtagFinish_idle]
      | error pe =>
        obtain ⟨results, e⟩ := pe
        cases e with
        | dap f =>
          simp [EngineM.bind_apply, EngineM.read_idle_cycles_apply,
            EngineM.set_idle_cycles_apply, EngineM.write_register_batch, EngineM.pure_apply,
            hbs, hq, jtagFinish_idle]
        | probe e =>
          exfalso
          rw [perform_jtag_transfers] at hok
          simp [EngineM.bind_apply, EngineM.read_idle_cycles_apply,
            EngineM.set_idle_cycles_apply, EngineM.write_register_batch, EngineM.pure_apply,
            EngineM.throw_apply, hbs, hq, hempty, isProbeError] at hok

/-! ### Executor result lemmas -/

theorem swdAssignLoop_length (bits : List Bool) (ts : List DapTransfer) :
    (swdAssignLoop bits ts).length = ts.length := by
  induction ts generalizing bits with
  | nil => rfl
  | cons t rest ih =>
    simp only [swdAssignLoop]
    cases hparse : parse_swd_response (bits.drop 8) t.direction <;> simp [hparse, ih]

theorem swdAssignLoop_no_pending (bits : List Bool) (ts : List DapTransfer) :
    ∀ t' ∈ swdAssignLoop bits ts, t'.status ≠ TransferStatus.Pending := by
  induction ts generalizing bits with
  | nil => intro t' h; cases h
  | cons t rest ih =>
    intro t' h
    simp only [swdAssignLoop] at h
    cases hparse : parse_swd_response (bits.drop 8) t.direction <;> rw [hparse] at h <;>
      rcases List.mem_cons.mp h with rfl | h
    · simp
    · exact ih _ _ h
    · simp
    · exact ih _ _ h

theorem perform_swd_transfers_spec (ts : List DapTransfer) (p p' : ProbeState)
    (out : List DapTransfer) (h : perform_swd_transfers ts p = (p', Except.ok out)) :
    out.length = ts.length ∧ ∀ t ∈ out, t.status ≠ TransferStatus.Pending := by
  unfold perform_swd_transfers at h
  cases hs : p.swd_script with
  | nil =>
    simp [EngineM.bind_apply, EngineM.swd_io, hs] at h
  | cons r rest =>
    cases r with
    | ok bits =>
      simp [EngineM.bind_apply, EngineM.swd_io, EngineM.pure_apply, hs] at h
      rcases h with ⟨-, hout⟩
      subst hout
      exact ⟨swdAssignLoop_length _ _, swdAssignLoop_no_pending _ _⟩
    | error e =>
      simp [EngineM.bind_apply, EngineM.swd_io, hs] at h

theorem walkChunk_wait_lt :
    ∀ (l : List DapTransfer) (k : Nat), walkChunk l = WalkOutcome.wait k → k < l.length := by
  intro l
  induction l with
  | nil => intro k h; simp [walkChunk] at h
  | cons t rest ih =>
    intro k h
    unfold walkChunk at h
    cases hst : t.status with
    | Pending => rw [hst] at h; simp at h
    | Ok =>
      rw [hst] at h
      cases hw : walkChunk rest with
      | allOk => rw [hw] at h; simp at h
      | wait k' =>
        rw [hw] at h
        simp at h
        have := ih k' hw
        simp [← h]
        omega
      | other k' => rw [hw] at h; simp at h
    | Failed e =>
      rw [hst] at h
      cases e <;> simp at h <;> simp [← h]

/-- `shiftStep` keeps the transfer's identity: it only sets the status to `Ok`
or fills in a value. -/
theorem shiftStep_statuses (Q : TransferStatus → Prop) (hQ : Q TransferStatus.Ok)
    (jr : List CommandResult) (i : Nat) (t t' : DapTransfer)
    (h : shiftStep jr i t = Except.ok t') (ht : Q t.status) : Q t'.status := by
  unfold shiftStep at h
  by_cases hab : (t.is_abort || t.is_rdbuff) = true
  · rw [if_pos hab] at h
    cases h
    exact hQ
  · rw [if_neg hab] at h
    by_cases hread : (t.status == TransferStatus.Ok
        && t.direction == TransferDirection.Read) = true
    · rw [if_pos hread] at h
      cases hg : jr[i + 1]? with
      | none => rw [hg] at h; exact Except.noConfusion h
      | some cr =>
        rw [hg] at h
        cases cr with
        | None => exact Except.noConfusion h
        | U32 v =>
          cases h
          exact ht
    · rw [if_neg hread] at h
      cases h
      exact ht

/-- The shift loop preserves length. -/
theorem shiftLoop_length (jr : List CommandResult) :
    ∀ (i iters : Nat) (ts out : List DapTransfer),
      shiftLoop jr i iters ts = Except.ok out → out.length = ts.length := by
  intro i iters ts
  induction ts generalizing i with
  | nil =>
    intro out h
    unfold shiftLoop at h
    by_cases hle : iters ≤ i
    · rw [if_pos hle] at h
      cases h
      rfl
    · rw [if_neg hle] at h
      exact Except.noConfusion h
  | cons t rest ih =>
    intro out h
    unfold shiftLoop at h
    by_cases hle : iters ≤ i
    · rw [if_pos hle] at h
      cases h
      rfl
    · rw [if_neg hle] at h
      cases hstep : shiftStep jr i t with
      | error e => rw [hstep] at h; exact Except.noConfusion h
      | ok t' =>
        rw [hstep] at h
        cases hrest : shiftLoop jr (i + 1) iters rest with
        | error e => rw [hrest] at h; exact Except.noConfusion h
        | ok rest' =>
          rw [hrest] at h
          cases h
          simp [ih _ _ hrest]

/-- The shift loop only ever writes `Ok` into a status (or keeps it): any
status predicate holding on the input and on `Ok` holds on the output. -/
theorem shiftLoop_statuses (Q : TransferStatus → Prop) (hQ : Q TransferStatus.Ok)
    (jr : List CommandResult) :
    ∀ (i iters : Nat) (ts out : List DapTransfer),
      (∀ t ∈ ts, Q t.status) → shiftLoop jr i iters ts = Except.ok out →
      ∀ t ∈ out, Q t.status := by
  intro i iters ts
  induction ts generalizing i with
  | nil =>
    intro out hts h
    unfold shiftLoop at h
    by_cases hle : iters ≤ i
    · rw [if_pos hle] at h
      cases h
      intro t ht
      cases ht
    · rw [if_neg hle] at h
      exact Except.noConfusion h
  | cons t rest ih =>
    intro out hts h
    unfold shiftLoop at h
    by_cases hle : iters ≤ i
    · rw [if_pos hle] at h
      cases h
      exact hts
    · rw [if_neg hle] at h
      have hQt : Q t.status := hts t (List.mem_cons_self t rest)
      have hrestQ : ∀ u ∈ rest, Q u.status := fun u hu => hts u (List.mem_cons_of_mem t hu)
      cases hstep : shiftStep jr i t with
      | error e => rw [hstep] at h; exact Except.noConfusion h
      | ok t' =>
        rw [hstep] at h
        cases hrest : shiftLoop jr (i + 1) iters rest with
        | error e => rw [hrest] at h; exact Except.noConfusion h
        | ok rest' =>
          rw [hrest] at h
          cases h
          intro u hu
          rcases List.mem_cons.mp hu with rfl | hu
          · exact shiftStep_statuses Q hQ jr i t u hstep hQt
          · exact ih _ rest' hrestQ hrest u hu

theorem getD_status_no_pending (l : List TransferStatus)
    (hl : ∀ s ∈ l, s ≠ TransferStatus.Pending) (n : Nat) :
    l.getD n TransferStatus.Ok ≠ TransferStatus.Pending := by
  by_cases hn : n < l.length
  · rw [List.getD_eq_getElem l _ hn]
    exact hl _ (List.getElem_mem hn)
  · rw [List.getD_eq_getElem?_getD, List.getElem?_eq_none (by omega), Option.getD_none]
    simp

theorem statuses_no_pending (n m : Nat) (f : DapError) :
    ∀ s ∈ List.replicate n TransferStatus.Ok ++
        List.replicate m (TransferStatus.Failed f),
      s ≠ TransferStatus.Pending := by
  intro s hs
  rcases List.mem_append.mp hs with hs | hs <;>
    rw [(List.mem_replicate.mp hs).2] <;> simp

/-- The post-restore stage: on success the output has the input's length and
every status satisfies any predicate that held on the input statuses and holds
on `Ok` and on `Failed FaultResponse`. -/
theorem jtagFinish_spec (jr : List CommandResult) (cv : Option Nat) (iters : Nat)
    (ts1 : List DapTransfer) (p p' : ProbeState) (out : List DapTransfer)
    (h : jtagFinish jr cv iters ts1 p = (p', Except.ok out)) :
    out.length = ts1.length ∧
      ∀ (Q : TransferStatus → Prop), Q TransferStatus.Ok →
        Q (TransferStatus.Failed DapError.FaultResponse) →
        (∀ t ∈ ts1, Q t.status) → ∀ t ∈ out, Q t.status := by
  unfold jtagFinish at h
  cases hs : shiftLoop jr 0 iters ts1 with
  | error e =>
    simp [hs, EngineM.throw_apply] at h
  | ok transfers2 =>
    have hlen2 := shiftLoop_length jr 0 iters ts1 transfers2 hs
    have hst2 : ∀ (Q : TransferStatus → Prop), Q TransferStatus.Ok →
        (∀ t ∈ ts1, Q t.status) → ∀ t ∈ transfers2, Q t.status :=
      fun Q hQok hts => shiftLoop_statuses Q hQok jr 0 iters ts1 _ hts hs
    cases cv with
    | none =>
      simp [hs, EngineM.pure_apply] at h
      rw [← h.2]
      exact ⟨hlen2, fun Q hQok hQf hts => hst2 Q hQok hts⟩
    | some hh =>
      cases hg : jr[hh]? with
      | none =>
        simp [hs, hg, EngineM.pure_apply] at h
        rw [← h.2]
        exact ⟨hlen2, fun Q hQok hQf hts => hst2 Q hQok hts⟩
      | some cr =>
        cases cr with
        | None =>
          simp [hs, hg, EngineM.pure_apply] at h
          rw [← h.2]
          exact ⟨hlen2, fun Q hQok hQf hts => hst2 Q hQok hts⟩
        | U32 v =>
          by_cases hsticky : Ctrl.sticky_err v
          · rcases h4 : perform_jtag_transfer
                (DapTransfer.write (RegisterAddress.DpRegister Ctrl.ADDRESS) v) p with ⟨p4, r4⟩
            cases r4 with
            | error e =>
              simp [hs, hg, hsticky, EngineM.bind_apply, h4] at h
            | ok u =>
              simp [hs, hg, hsticky, EngineM.bind_apply, h4, EngineM.pure_apply] at h
              rw [← h.2]
              refine ⟨by simp [hlen2], ?_⟩
              intro Q hQok hQf hts t ht
              rcases List.mem_map.mp ht with ⟨u', hu, rfl⟩
              have hQu : Q u'.status := hst2 Q hQok hts u' hu
              by_cases hok : u'.status = TransferStatus.Ok
              · simp [hok, hQf]
              · simp [hok, hQu]
          · simp [hs, hg, hsticky, EngineM.pure_apply] at h
            rw [← h.2]
            exact ⟨hlen2, fun Q hQok hQf hts => hst2 Q hQok hts⟩

/-- On success, `perform_jtag_transfers` preserves the batch length and leaves
no transfer `Pending`. -/
theorem perform_jtag_transfers_spec (ts : List DapTransfer) (p p' : ProbeState)
    (out : List DapTransfer) (h : perform_jtag_transfers ts p = (p', Except.ok out)) :
    out.length = ts.length ∧ ∀ t ∈ out, t.status ≠ TransferStatus.Pending := by
  have htr1len : ∀ (sr : List TransferStatus),
      (ts.enum.map (fun it =>
        { it.2 with status := sr.getD (it.1 + 1) TransferStatus.Ok })).length = ts.length := by
    intro sr
    simp [List.enum_length]
  have htr1st : ∀ (sr : List TransferStatus),
      (∀ s ∈ sr, s ≠ TransferStatus.Pending) →
      ∀ t ∈ ts.enum.map (fun it =>
        { it.2 with status := sr.getD (it.1 + 1) TransferStatus.Ok }),
        t.status ≠ TransferStatus.Pending := by
    intro sr hsr t ht
    rcases List.mem_map.mp ht with ⟨⟨i, t0⟩, hmem, rfl⟩
    exact getD_status_no_pending sr hsr (i + 1)
  by_cases hempty : ts.isEmpty
  · rw [perform_jtag_transfers] at h
    simp [hempty, EngineM.throw_apply] at h
  · rw [perform_jtag_transfers] at h
    simp only [hempty, Bool.false_eq_true, if_false] at h
    cases hbs : p.batch_script with
    | nil =>
      cases hq : execBatch [] (jtagQueue ts) with
      | ok results =>
        simp only [EngineM.bind_apply, EngineM.read_idle_cycles_apply,
          EngineM.set_idle_cycles_apply, EngineM.write_register_batch, EngineM.pure_apply,
          hbs, hq] at h
        rcases jtagFinish_spec _ _ _ _ _ _ _ h with ⟨hlen, hst⟩
        refine ⟨by rw [hlen, htr1len], ?_⟩
        exact hst (· ≠ TransferStatus.Pending) (by simp) (by simp)
          (htr1st _ (by
            intro s hs
            rw [(List.mem_replicate.mp hs).2]
            simp))
      | error pe =>
        obtain ⟨results, e⟩ := pe
        cases e with
        | dap f =>
          simp only [EngineM.bind_apply, EngineM.read_idle_cycles_apply,
            EngineM.set_idle_cycles_apply, EngineM.write_register_batch, EngineM.pure_apply,
            hbs, hq] at h
          rcases jtagFinish_spec _ _ _ _ _ _ _ h with ⟨hlen, hst⟩
          refine ⟨by rw [hlen, htr1len], ?_⟩
          exact hst (· ≠ TransferStatus.Pending) (by simp) (by simp)
            (htr1st _ (statuses_no_pending _ _ f))
        | probe e =>
          simp only [EngineM.bind_apply, EngineM.read_idle_cycles_apply,
            EngineM.set_idle_cycles_apply, EngineM.write_register_batch, EngineM.pure_apply,
            EngineM.throw_apply, hbs, hq] at h
          cases h
    | cons s rest =>
      cases hq : execBatch s (jtagQueue ts) with
      | ok results =>
        simp only [EngineM.bind_apply, EngineM.read_idle_cycles_apply,
          EngineM.set_idle_cycles_apply, EngineM.write_register_batch, EngineM.pure_apply,
          hbs, hq] at h
        rcases jtagFinish_spec _ _ _ _ _ _ _ h with ⟨hlen, hst⟩
        refine ⟨by rw [hlen, htr1len], ?_⟩
        exact hst (· ≠ TransferStatus.Pending) (by simp) (by simp)
          (htr1st _ (by
            intro s' hs'
            rw [(List.mem_replicate.mp hs').2]
            simp))
      | error pe =>
        obtain ⟨results, e⟩ := pe
        cases e with
        | dap f =>
          simp only [EngineM.bind_apply, EngineM.read_idle_cycles_apply,
            EngineM.set_idle_cycles_apply, EngineM.write_register_batch, EngineM.pure_apply,
            hbs, hq] at h
          rcases jtagFinish_spec _ _ _ _ _ _ _ h with ⟨hlen, hst⟩
          refine ⟨by rw [hlen, htr1len], ?_⟩
          exact hst (· ≠ TransferStatus.Pending) (by simp) (by simp)
            (htr1st _ (statuses_no_pending _ _ f))
        | probe e =>
          simp only [EngineM.bind_apply, EngineM.read_idle_cycles_apply,
            EngineM.set_idle_cycles_apply, EngineM.write_register_batch, EngineM.pure_apply,
            EngineM.throw_apply, hbs, hq] at h
          cases h

/-- On success, `perform_raw_transfers` preserves the batch length and leaves
no transfer `Pending`. -/
theorem perform_raw_transfers_spec (ts : List DapTransfer) (p p' : ProbeState)
    (out : List DapTransfer) (h : perform_raw_transfers ts p = (p', Except.ok out)) :
    out.length = ts.length ∧ ∀ t ∈ out, t.status ≠ TransferStatus.Pending := by
  unfold perform_raw_transfers at h
  cases hproto : p.protocol <;>
    simp only [EngineM.bind_apply, EngineM.getState_apply, hproto] at h
  · exact perform_swd_transfers_spec _ _ _ _ h
  · exact perform_jtag_transfers_spec _ _ _ _ h

/-- Idle-cycle bumping does not change a transfer's status. -/
theorem bump_status (t : DapTransfer) (idle : Nat) :
    ((if t.is_write then { t with idle_cycles_after := t.idle_cycles_after + idle }
      else t) : DapTransfer).status = t.status := by
  split <;> rfl

/-- The WAIT-retry loop: on success the transfer list keeps its length, and if
at least one iteration remains (or every status is already set) no transfer is
left `Pending`. -/
theorem retryLoop_spec :
    ∀ (fuel : Nat) (ts : List DapTransfer) (successful idle : Nat) (p p' : ProbeState)
      (out : List DapTransfer),
      successful ≤ ts.length →
      (∀ t ∈ ts.take successful, t.status ≠ TransferStatus.Pending) →
      (fuel = 0 → ∀ t ∈ ts, t.status ≠ TransferStatus.Pending) →
      retryLoop fuel ts successful idle p = (p', Except.ok out) →
      out.length = ts.length ∧ ∀ t ∈ out, t.status ≠ TransferStatus.Pending := by
  intro fuel
  induction fuel with
  | zero =>
    intro ts successful idle p p' out hle hpre hall h
    unfold retryLoop at h
    rcases hw : write_dp_register Abort.ADDRESS (abortValue true false false) p with ⟨p1, r1⟩
    cases r1 with
    | error e =>
      rw [EngineM.bind_err _ _ _ _ _ hw] at h
      simp at h
    | ok u =>
      simp only [EngineM.bind_ok _ _ _ _ _ hw, EngineM.pure_apply, Prod.mk.injEq,
        Except.ok.injEq] at h
      rw [← h.2]
      exact ⟨rfl, hall rfl⟩
  | succ fuel ih =>
    intro ts successful idle p p' out hle hpre hall h
    unfold retryLoop at h
    simp only [EngineM.bind_ok _ _ _ _ _ (EngineM.getState_apply p)] at h
    by_cases hemp : (ts.drop successful).isEmpty
    · rw [if_pos hemp] at h
      rw [EngineM.throw_apply] at h
      simp at h
    · rw [if_neg hemp] at h
      rcases hraw : perform_raw_transfers (ts.drop successful) p with ⟨p1, r1⟩
      cases r1 with
      | error e =>
        rw [EngineM.bind_err _ _ _ _ _ hraw] at h
        simp at h
      | ok chunk' =>
        simp only [EngineM.bind_ok _ _ _ _ _ hraw] at h
        obtain ⟨hclen, hcst⟩ := perform_raw_transfers_spec _ _ _ _ hraw
        have htlen : (ts.take successful ++ chunk').length = ts.length := by
          simp [List.length_take, hclen]
          omega
        have hallnp : ∀ t ∈ ts.take successful ++ chunk',
            t.status ≠ TransferStatus.Pending := by
          intro t ht
          rcases List.mem_append.mp ht with ht | ht
          · exact hpre t ht
          · exact hcst t ht
        cases hwalk : walkChunk chunk' with
        | allOk =>
          simp only [hwalk] at h
          have hcondeq : successful + chunk'.length =
              (ts.take successful ++ chunk').length := by
            rw [htlen]
            simp [List.length_drop] at hclen
            omega
          rw [if_pos (beq_iff_eq.mpr hcondeq)] at h
          rw [EngineM.pure_apply] at h
          simp only [Prod.mk.injEq, Except.ok.injEq] at h
          rw [← h.2]
          exact ⟨htlen, hallnp⟩
        | wait k =>
          simp only [hwalk] at h
          rcases hclr : clear_overrun_and_sticky_err p1 with ⟨p2, r2⟩
          cases r2 with
          | error e =>
            rw [EngineM.bind_err _ _ _ _ _ hclr] at h
            simp at h
          | ok u =>
            simp only [EngineM.bind_ok _ _ _ _ _ hclr] at h
            have hk := walkChunk_wait_lt chunk' k hwalk
            have hblen : (chunk'.map (fun t =>
                if t.is_write then
                  { t with idle_cycles_after := t.idle_cycles_after + idle }
                else t)).length = chunk'.length := by simp
            have htlen2 : (ts.take successful ++ chunk'.map (fun t =>
                if t.is_write then
                  { t with idle_cycles_after := t.idle_cycles_after + idle }
                else t)).length = ts.length := by
              simp [List.length_take, hclen]
              omega
            have hallnp2 : ∀ t ∈ ts.take successful ++ chunk'.map (fun t =>
                if t.is_write then
                  { t with idle_cycles_after := t.idle_cycles_after + idle }
                else t), t.status ≠ TransferStatus.Pending := by
              intro t ht
              rcases List.mem_append.mp ht with ht | ht
              · exact hpre t ht
              · rcases List.mem_map.mp ht with ⟨u', hu, rfl⟩
                rw [bump_status]
                exact hcst u' hu
            have hres := ih _ (successful + k) _ p2 p' out
              (by
                rw [htlen2]
                simp [List.length_drop] at hclen
                omega)
              (fun t ht => hallnp2 t (List.mem_of_mem_take ht))
              (fun _ => hallnp2) h
            rw [htlen2] at hres
            exact hres
        | other k =>
          simp only [hwalk] at h
          rw [EngineM.pure_apply] at h
          simp only [Prod.mk.injEq, Except.ok.injEq] at h
          rw [← h.2]
          exact ⟨htlen, hallnp⟩

/-! ### Planner lemmas -/

theorem getD_append_len {α : Type} (l : List α) (x : α) (xs : List α) (d : α) :
    (l ++ (x :: xs)).getD l.length d = x := by
  rw [List.getD_eq_getElem?_getD, List.getElem?_append_right (le_refl _)]
  simp

theorem getD_append_lt {α : Type} (l l' : List α) (i : Nat) (d : α) (h : i < l.length) :
    (l ++ l').getD i d = l.getD i d := by
  rw [List.getD_eq_getElem?_getD, List.getElem?_append_left h, ← List.getD_eq_getElem?_getD]

theorem bumpLast_length (extra : Nat) :
    ∀ l : List DapTransfer, (bumpLast extra l).length = l.length := by
  intro l
  induction l with
  | nil => rfl
  | cons t rest ih =>
    cases rest with
    | nil => rfl
    | cons u rest2 =>
      simp only [bumpLast, List.length_cons]
      simp only [bumpLast, List.length_cons] at ih
      omega

theorem bumpLast_append (extra : Nat) (l : List DapTransfer) (t : DapTransfer) :
    bumpLast extra (l ++ [t]) =
      l ++ [{ t with idle_cycles_after := t.idle_cycles_after + extra }] := by
  induction l with
  | nil => rfl
  | cons u rest ih =>
    rcases hr : rest ++ [t] with _ | ⟨v, vs⟩
    · exact absurd hr (by simp)
    · simp only [List.cons_append, hr, bumpLast]
      rw [← hr, ih]

theorem sameCore_idle (t : DapTransfer) (n : Nat) :
    sameCore { t with idle_cycles_after := n } t := ⟨rfl, rfl, rfl, rfl⟩

theorem planAdjust_core (st : SwdSettings) (t : DapTransfer) :
    sameCore (planAdjust st t) t := by
  unfold planAdjust
  split
  · exact sameCore_idle t _
  · exact ⟨rfl, rfl, rfl, rfl⟩

theorem sameCore_trans (a b c : DapTransfer) (h1 : sameCore a b) (h2 : sameCore b c) :
    sameCore a c :=
  ⟨h1.1.trans h2.1, h1.2.1.trans h2.2.1, h1.2.2.1.trans h2.2.2.1, h1.2.2.2.trans h2.2.2.2⟩

theorem planFaccStep_prefix (st : SwdSettings) (proto : WireProtocol) (t : DapTransfer)
    (rest facc : List DapTransfer) :
    ∃ ext, planFaccStep st proto t rest facc = facc ++ ext := by
  unfold planFaccStep
  by_cases hj : (proto == WireProtocol.Jtag) = true
  · rw [if_pos hj]
    exact ⟨_, rfl⟩
  · rw [if_neg hj]
    by_cases hx : (planExtra st t rest).1 = true
    · rw [if_pos hx, bumpLast_append, List.append_assoc]
      exact ⟨_, rfl⟩
    · rw [if_neg hx]
      exact ⟨_, rfl⟩

theorem planFaccStep_length (st : SwdSettings) (proto : WireProtocol) (t : DapTransfer)
    (rest facc : List DapTransfer) :
    facc.length + 1 ≤ (planFaccStep st proto t rest facc).length ∧
      (planFaccStep st proto t rest facc).length ≤ facc.length + 2 := by
  unfold planFaccStep
  by_cases hj : (proto == WireProtocol.Jtag) = true
  · rw [if_pos hj]
    simp
  · rw [if_neg hj]
    by_cases hx : (planExtra st t rest).1 = true
    · rw [if_pos hx]
      simp [bumpLast_length]
    · rw [if_neg hx]
      simp

theorem planFaccStep_core (st : SwdSettings) (proto : WireProtocol) (t : DapTransfer)
    (rest facc : List DapTransfer) :
    sameCore ((planFaccStep st proto t rest facc).getD facc.length dummyTransfer) t := by
  unfold planFaccStep
  by_cases hj : (proto == WireProtocol.Jtag) = true
  · rw [if_pos hj]
    rw [getD_append_len]
    exact planAdjust_core st t
  · rw [if_neg hj]
    by_cases hx : (planExtra st t rest).1 = true
    · rw [if_pos hx, bumpLast_append, List.append_assoc, List.singleton_append]
      rw [getD_append_len]
      exact sameCore_trans _ _ _ (sameCore_idle _ _) (planAdjust_core st t)
    · rw [if_neg hx]
      rw [getD_append_len]
      exact planAdjust_core st t

theorem planFaccStep_last (st : SwdSettings) (proto : WireProtocol) (t : DapTransfer)
    (facc : List DapTransfer) (hresp : planRespInNext proto t = true) :
    facc.length + 2 ≤ (planFaccStep st proto t [] facc).length := by
  unfold planFaccStep
  have hj : (proto == WireProtocol.Jtag) = false := by
    unfold planRespInNext at hresp
    cases proto
    · rfl
    · simp at hresp
  rw [if_neg (by simp [hj])]
  have hx : (planExtra st t []).1 = true := by
    unfold planExtra
    unfold planRespInNext at hresp
    simp only [Bool.and_eq_true, beq_iff_eq] at hresp
    simp [DapTransfer.is_ap_read, DapTransfer.is_write] at hresp ⊢
    rcases hresp.2 with h | h
    · left
      exact h
    · right
      exact h
  rw [if_pos hx]
  simp [bumpLast_length]

theorem planLoop_indices_length (st : SwdSettings) (proto : WireProtocol) :
    ∀ (rest facc : List DapTransfer) (iacc : List OriginalTransfer),
      (planLoop st proto rest facc iacc).2.length = iacc.length + rest.length := by
  intro rest
  induction rest with
  | nil => intro facc iacc; simp [planLoop]
  | cons t rest' ih =>
    intro facc iacc
    show (planLoop st proto rest' _ _).2.length = _
    rw [ih]
    simp
    omega

theorem planLoop_indices_getD (st : SwdSettings) (proto : WireProtocol) :
    ∀ (rest facc : List DapTransfer) (iacc : List OriginalTransfer) (j : Nat),
      j < iacc.length →
      (planLoop st proto rest facc iacc).2.getD j dummyOrig = iacc.getD j dummyOrig := by
  intro rest
  induction rest with
  | nil => intro facc iacc j hj; rfl
  | cons t rest' ih =>
    intro facc iacc j hj
    show (planLoop st proto rest' _ _).2.getD j dummyOrig = _
    rw [ih _ _ j (by simp; omega)]
    exact getD_append_lt _ _ _ _ hj

theorem planLoop_final_prefix (st : SwdSettings) (proto : WireProtocol) :
    ∀ (rest facc : List DapTransfer) (iacc : List OriginalTransfer),
      ∃ ext, (planLoop st proto rest facc iacc).1 = facc ++ ext := by
  intro rest
  induction rest with
  | nil => intro facc iacc; exact ⟨[], by simp [planLoop]⟩
  | cons t rest' ih =>
    intro facc iacc
    obtain ⟨ext0, h0⟩ := planFaccStep_prefix st proto t rest' facc
    obtain ⟨ext1, h1⟩ := ih (planFaccStep st proto t rest' facc)
      (iacc ++ [{ index := facc.length, response_in_next := planRespInNext proto t }])
    refine ⟨ext0 ++ ext1, ?_⟩
    show (planLoop st proto rest' _ _).1 = _
    rw [h1, h0, List.append_assoc]

theorem planLoop_final_length (st : SwdSettings) (proto : WireProtocol) :
    ∀ (rest facc : List DapTransfer) (iacc : List OriginalTransfer),
      facc.length + rest.length ≤ (planLoop st proto rest facc iacc).1.length := by
  intro rest
  induction rest with
  | nil => intro facc iacc; simp [planLoop]
  | cons t rest' ih =>
    intro facc iacc
    have h1 := ih (planFaccStep st proto t rest' facc)
      (iacc ++ [{ index := facc.length, response_in_next := planRespInNext proto t }])
    have h2 := (planFaccStep_length st proto t rest' facc).1
    show facc.length + (rest'.length + 1) ≤ (planLoop st proto rest' _ _).1.length
    omega

theorem planLoop_entry (st : SwdSettings) (proto : WireProtocol) :
    ∀ (rest facc : List DapTransfer) (iacc : List OriginalTransfer) (j : Nat),
      j < rest.length → planEntryProp st proto rest facc iacc j := by
  intro rest
  induction rest with
  | nil => intro facc iacc j hj; simp at hj
  | cons t rest' ih =>
    intro facc iacc j hj
    cases j with
    | zero =>
      have hidx : (planLoop st proto (t :: rest') facc iacc).2.getD
          (iacc.length + 0) dummyOrig =
          { index := facc.length, response_in_next := planRespInNext proto t } := by
        show (planLoop st proto rest' _ _).2.getD (iacc.length + 0) dummyOrig = _
        rw [planLoop_indices_getD st proto rest' _ _ (iacc.length + 0) (by simp)]
        rw [Nat.add_zero]
        exact getD_append_len iacc _ [] dummyOrig
      obtain ⟨ext1, h1⟩ := planLoop_final_prefix st proto rest'
        (planFaccStep st proto t rest' facc)
        (iacc ++ [{ index := facc.length, response_in_next := planRespInNext proto t }])
      have hflen := planLoop_final_length st proto rest'
        (planFaccStep st proto t rest' facc)
        (iacc ++ [{ index := facc.length, response_in_next := planRespInNext proto t }])
      have hslen := planFaccStep_length st proto t rest' facc
      have hplan1 : (planLoop st proto (t :: rest') facc iacc).1 =
          planFaccStep st proto t rest' facc ++ ext1 := h1
      refine ⟨?_, ?_, ?_, ?_, ?_⟩
      · rw [hidx]
        rfl
      · rw [hidx]
      · rw [hidx, hplan1]
        show facc.length < _
        simp only [List.length_append]
        omega
      · rw [hidx, hplan1]
        show sameCore
          ((planFaccStep st proto t rest' facc ++ ext1).getD facc.length dummyTransfer) _
        rw [getD_append_lt _ _ _ _ (by omega)]
        exact planFaccStep_core st proto t rest' facc
      · rw [hidx, hplan1]
        intro hresp
        show facc.length + 1 < _
        simp only [List.length_append]
        cases rest' with
        | nil =>
          have := planFaccStep_last st proto t facc hresp
          omega
        | cons u rest'' =>
          have h5 := planLoop_final_length st proto (u :: rest'')
            (planFaccStep st proto t (u :: rest'') facc)
            (iacc ++ [OriginalTransfer.mk facc.length (planRespInNext proto t)])
          have h6 : (planLoop st proto (u :: rest'')
              (planFaccStep st proto t (u :: rest'') facc)
              (iacc ++ [OriginalTransfer.mk facc.length (planRespInNext proto t)])).1 =
              planFaccStep st proto t (u :: rest'') facc ++ ext1 := hplan1
          rw [h6] at h5
          simp only [List.length_append, List.length_cons] at h5
          omega
    | succ j' =>
      have hj' : j' < rest'.length := by simp at hj; omega
      have ihx := ih (planFaccStep st proto t rest' facc)
        (iacc ++ [{ index := facc.length, response_in_next := planRespInNext proto t }]) j' hj'
      have hslen := planFaccStep_length st proto t rest' facc
      unfold planEntryProp at ihx ⊢
      have hshift : (iacc ++ [OriginalTransfer.mk facc.length
          (planRespInNext proto t)]).length + j' = iacc.length + (j' + 1) := by
        simp
        omega
      rw [hshift] at ihx
      have hrest : rest'.getD j' dummyTransfer = (t :: rest').getD (j' + 1) dummyTransfer := rfl
      rw [hrest] at ihx
      refine ⟨ihx.1, ?_, ihx.2.2.1, ihx.2.2.2.1, ihx.2.2.2.2⟩
      exact le_trans (by omega) ihx.2.1

/-! ### Retrieval lemmas -/

theorem retrieveResults_length :
    ∀ (ts : List DapTransfer) (idxs : List OriginalTransfer) (F : List DapTransfer),
      idxs.length = ts.length → (retrieveResults ts idxs F).length = ts.length := by
  intro ts
  induction ts with
  | nil => intro idxs F h; rfl
  | cons t ts' ih =>
    intro idxs F h
    cases idxs with
    | nil => simp at h
    | cons o os =>
      simp only [retrieveResults, List.length_cons]
      rw [ih os F (by simpa using h)]

theorem status_of_value_update (t1 : DapTransfer) (v : Nat) (c : Bool) :
    ((if c = true then { t1 with value := v } else t1) : DapTransfer).status = t1.status := by
  split <;> rfl

theorem retrieveStatus_no_pending (o : OriginalTransfer) (F : List DapTransfer)
    (hF : ∀ t ∈ F, t.status ≠ TransferStatus.Pending) (h1 : o.index < F.length)
    (h2 : o.response_in_next = true → o.index + 1 < F.length) :
    retrieveStatus o F ≠ TransferStatus.Pending := by
  unfold retrieveStatus
  by_cases hovr : (o.response_in_next &&
      ((F.getD o.index dummyTransfer).status == TransferStatus.Ok)) = true
  · rw [if_pos hovr]
    have hresp : o.response_in_next = true := by
      have h3 := hovr
      simp only [Bool.and_eq_true] at h3
      exact h3.1
    rw [hresp, if_pos rfl]
    exact hF _ (by
      rw [List.getD_eq_getElem F _ (h2 hresp)]
      exact List.getElem_mem (h2 hresp))
  · rw [if_neg hovr]
    exact hF _ (by
      rw [List.getD_eq_getElem F _ h1]
      exact List.getElem_mem h1)

theorem retrieveResults_no_pending :
    ∀ (ts : List DapTransfer) (idxs : List OriginalTransfer) (F : List DapTransfer),
      (∀ t ∈ F, t.status ≠ TransferStatus.Pending) →
      (∀ o ∈ idxs, o.index < F.length ∧
        (o.response_in_next = true → o.index + 1 < F.length)) →
      ∀ t ∈ retrieveResults ts idxs F, t.status ≠ TransferStatus.Pending := by
  intro ts
  induction ts with
  | nil => intro idxs F hF hids t ht; cases ht
  | cons t ts' ih =>
    intro idxs F hF hids t' ht'
    cases idxs with
    | nil => cases ht'
    | cons o os =>
      simp only [retrieveResults] at ht'
      rcases List.mem_cons.mp ht' with rfl | hmem
      · have hb := hids o (List.mem_cons_self o os)
        split <;> exact retrieveStatus_no_pending o F hF hb.1 hb.2
      · exact ih os F hF (fun o' ho' => hids o' (List.mem_cons_of_mem o ho')) t' hmem

theorem sameCore_refl (t : DapTransfer) : sameCore t t := ⟨rfl, rfl, rfl, rfl⟩

theorem bumpLast_core (extra : Nat) :
    ∀ (l : List DapTransfer) (i : Nat),
      sameCore ((bumpLast extra l).getD i dummyTransfer) (l.getD i dummyTransfer) := by
  intro l
  induction l with
  | nil => intro i; exact sameCore_refl _
  | cons t rest ih =>
    intro i
    cases rest with
    | nil =>
      cases i with
      | zero => exact sameCore_idle t _
      | succ i' => exact sameCore_refl _
    | cons u rest2 =>
      cases i with
      | zero => exact sameCore_refl _
      | succ i' =>
        show sameCore ((bumpLast extra (u :: rest2)).getD i' dummyTransfer)
          ((u :: rest2).getD i' dummyTransfer)
        exact ih i'

theorem retrieveStatus_eq (o : OriginalTransfer) (F : List DapTransfer) :
    retrieveStatus o F =
      if o.response_in_next = true
          ∧ (F.getD o.index dummyTransfer).status = TransferStatus.Ok
        then (F.getD (o.index + 1) dummyTransfer).status
        else (F.getD o.index dummyTransfer).status := by
  by_cases h1 : o.response_in_next = true <;>
    by_cases h2 : (F.getD o.index dummyTransfer).status = TransferStatus.Ok <;>
    simp [retrieveStatus, h1, h2]

theorem retrieveResults_status :
    ∀ (ts : List DapTransfer) (idxs : List OriginalTransfer) (F : List DapTransfer) (j : Nat),
      j < ts.length → j < idxs.length →
      ((retrieveResults ts idxs F).getD j dummyTransfer).status =
        retrieveStatus (idxs.getD j dummyOrig) F := by
  intro ts
  induction ts with
  | nil => intro idxs F j hj _; simp at hj
  | cons t ts' ih =>
    intro idxs F j hj hj2
    cases idxs with
    | nil => simp at hj2
    | cons o os =>
      cases j with
      | zero =>
        simp only [retrieveResults, List.getD_cons_zero]
        split <;> rfl
      | succ j' =>
        simp only [retrieveResults, List.getD_cons_succ]
        exact ih os F j' (by simpa using hj) (by simpa using hj2)

theorem retrieveResults_value :
    ∀ (ts : List DapTransfer) (idxs : List OriginalTransfer) (F : List DapTransfer) (j : Nat),
      j < ts.length → j < idxs.length →
      (ts.getD j dummyTransfer).direction = TransferDirection.Read →
      ((retrieveResults ts idxs F).getD j dummyTransfer).value =
        (F.getD ((idxs.getD j dummyOrig).index +
          (if (idxs.getD j dummyOrig).response_in_next then 1 else 0))
          dummyTransfer).value := by
  intro ts
  induction ts with
  | nil => intro idxs F j hj _ _; simp at hj
  | cons t ts' ih =>
    intro idxs F j hj hj2 hdir
    cases idxs with
    | nil => simp at hj2
    | cons o os =>
      cases j with
      | zero =>
        have hd : t.direction = TransferDirection.Read := by simpa using hdir
        simp only [retrieveResults, List.getD_cons_zero]
        rw [if_pos (by simp [hd])]
      | succ j' =>
        simp only [List.getD_cons_succ] at hdir
        simp only [retrieveResults, List.getD_cons_succ]
        exact ih os F j' (by simpa using hj) (by simpa using hj2) hdir

/-! ### C1 - the planner contract of perform_transfers -/

/-- C1: the planner of `perform_transfers` records, for every caller transfer,
the index of its copy in the extended batch (in bounds, pointing at a transfer
with the same address, direction, value and status) and the `response_in_next`
flag, set exactly for SWD AP reads and non-ABORT writes; after execution the
retrieval loop takes each status from the slot at the recorded index,
overwritten by the next slot only when the flag is set and that status is Ok,
and each read value from the slot at index plus flag; `perform_transfers`
itself is exactly this plan-execute-retrieve pipeline. -/
theorem C1_planner_contract (p : ProbeState) (ts : List DapTransfer) (hne : ts ≠ []) :
    C1Statement p ts := by
  have hidxlen : (planLoop p.settings p.protocol ts [] []).2.length = ts.length := by
    rw [planLoop_indices_length]
    simp
  unfold C1Statement
  refine ⟨hidxlen, ?_, ?_, ?_, ?_⟩
  · intro j hj
    have h := planLoop_entry p.settings p.protocol ts [] [] j hj
    unfold planEntryProp at h
    simp only [List.length_nil, Nat.zero_add] at h
    rw [h.1]
    rfl
  · intro j hj
    have h := planLoop_entry p.settings p.protocol ts [] [] j hj
    unfold planEntryProp at h
    simp only [List.length_nil, Nat.zero_add] at h
    refine ⟨?_, ?_, ?_⟩
    · rw [bumpLast_length]
      exact h.2.2.1
    · exact sameCore_trans _ _ _ (bumpLast_core _ _ _) h.2.2.2.1
    · intro hresp
      rw [bumpLast_length]
      exact h.2.2.2.2 hresp
  · intro F j hj
    refine ⟨?_, ?_⟩
    · rw [retrieveResults_status ts _ F j hj (by rw [hidxlen]; exact hj), retrieveStatus_eq]
    · intro hdir
      exact retrieveResults_value ts _ F j hj (by rw [hidxlen]; exact hj) hdir
  · unfold perform_transfers
    rw [if_neg (by simp [hne])]
    simp only [EngineM.bind_ok _ _ _ _ _ (EngineM.getState_apply p)]
    rcases hrr : perform_raw_transfers_retry
        (bumpLast p.settings.idle_cycles_after_transfer
          (planLoop p.settings p.protocol ts [] []).1) p with ⟨p1, r1⟩
    cases r1 with
    | error e =>
      rw [EngineM.bind_err _ _ _ _ _ hrr]
      simp [Except.map]
    | ok F =>
      rw [EngineM.bind_ok _ _ _ _ _ hrr, EngineM.pure_apply]
      simp [Except.map]

/-- Witness for C1 at a concrete probe and single-transfer batch. -/
theorem C1_planner_contract_witness :
    [apRead4] ≠ ([] : List DapTransfer) ∧ C1Statement c2w_probe [apRead4] :=
  ⟨by decide, C1_planner_contract c2w_probe [apRead4] (by decide)⟩

/-! ### C2 - no Pending after a successful perform_transfers -/

/-- C2 counterexample: with `num_retries_after_wait = 0` the retry loop never
executes; `perform_transfers` returns Ok yet the caller's transfer is still
`Pending`. -/
theorem C2_no_pending_counterexample :
    (perform_transfers [dpidrRead] c2_probe).2 = Except.ok [dpidrRead]
      ∧ dpidrRead.status = TransferStatus.Pending
      ∧ c2_probe.settings.num_retries_after_wait = 0 := by
  refine ⟨?_, ?_, ?_⟩ <;> decide

/-- C2 amended: for every non-empty batch and probe configuration with at
least one retry budgeted (`num_retries_after_wait ≥ 1`), when
`perform_transfers` returns Ok every caller transfer has a status other than
`Pending`.  (With `num_retries_after_wait = 0` the raw executor is never
invoked and the statuses remain `Pending`, as the counterexample shows.) -/
theorem C2_no_pending_amended (p : ProbeState) (ts : List DapTransfer)
    (hretries : 1 ≤ p.settings.num_retries_after_wait) (hne : ts ≠ [])
    (p' : ProbeState) (out : List DapTransfer)
    (h : perform_transfers ts p = (p', Except.ok out)) :
    ∀ t ∈ out, t.status ≠ TransferStatus.Pending := by
  unfold perform_transfers at h
  rw [if_neg (by simp [hne])] at h
  simp only [EngineM.bind_ok _ _ _ _ _ (EngineM.getState_apply p)] at h
  rcases hrr : perform_raw_transfers_retry
      (bumpLast p.settings.idle_cycles_after_transfer
        (planLoop p.settings p.protocol ts [] []).1) p with ⟨p1, r1⟩
  cases r1 with
  | error e =>
    rw [EngineM.bind_err _ _ _ _ _ hrr] at h
    simp at h
  | ok F =>
    simp only [EngineM.bind_ok _ _ _ _ _ hrr, EngineM.pure_apply, Prod.mk.injEq,
      Except.ok.injEq] at h
    have hrr2 : retryLoop p.settings.num_retries_after_wait
        (bumpLast p.settings.idle_cycles_after_transfer
          (planLoop p.settings p.protocol ts [] []).1) 0
        (max 1 p.settings.num_idle_cycles_between_writes) p = (p1, Except.ok F) := by
      unfold perform_raw_transfers_retry at hrr
      rw [EngineM.bind_ok _ _ _ _ _ (EngineM.getState_apply p)] at hrr
      exact hrr
    obtain ⟨hFlen, hFst⟩ := retryLoop_spec _ _ 0 _ p p1 F (by omega) (by simp)
      (by intro h0; exfalso; omega) hrr2
    rw [bumpLast_length] at hFlen
    have hidxlen : (planLoop p.settings p.protocol ts [] []).2.length = ts.length := by
      rw [planLoop_indices_length]
      simp
    have hbounds : ∀ o ∈ (planLoop p.settings p.protocol ts [] []).2,
        o.index < F.length ∧ (o.response_in_next = true → o.index + 1 < F.length) := by
      intro o ho
      obtain ⟨j, hjlt, hjeq⟩ := List.getElem_of_mem ho
      have hjlt' : j < ts.length := by rw [← hidxlen]; exact hjlt
      have hentry := planLoop_entry p.settings p.protocol ts [] [] j hjlt'
      unfold planEntryProp at hentry
      have hgd : (planLoop p.settings p.protocol ts [] []).2.getD
          (List.length ([] : List OriginalTransfer) + j) dummyOrig = o := by
        simp only [List.length_nil, Nat.zero_add]
        rw [List.getD_eq_getElem _ _ hjlt]
        exact hjeq
      rw [hgd] at hentry
      rw [hFlen]
      exact ⟨hentry.2.2.1, hentry.2.2.2.2⟩
    rw [← h.2]
    exact retrieveResults_no_pending ts _ F hFst hbounds

/-- Witness for C2 at a concrete successful single-read run. -/
theorem C2_no_pending_witness :
    1 ≤ c2w_probe.settings.num_retries_after_wait ∧ [dpidrRead] ≠ []
      ∧ ∀ t ∈ (perform_transfers [dpidrRead] c2w_probe).2.toOption.getD [],
          t.status ≠ TransferStatus.Pending := by
  refine ⟨by decide, by decide, ?_⟩
  have hrun : perform_transfers [dpidrRead] c2w_probe =
      ({ c2w_probe with swd_script := [] },
        Except.ok [{ dpidrRead with status := TransferStatus.Ok }]) := by decide
  intro t ht
  rw [hrun] at ht
  exact C2_no_pending_amended c2w_probe [dpidrRead] (by decide) (by decide) _ _ hrun t
    (by simpa [Except.toOption] using ht)

/-! ### C4 - the WAIT-retry loop -/

theorem retryLoop_eq_retrySpec :
    ∀ (fuel : Nat) (done todo : List DapTransfer) (idle : Nat) (q : ProbeState),
      retryLoop fuel (done ++ todo) done.length idle q = retrySpec fuel done todo idle q := by
  intro fuel
  induction fuel with
  | zero =>
    intro done todo idle q
    rfl
  | succ fuel ih =>
    intro done todo idle q
    have hdrop : (done ++ todo).drop done.length = todo := List.drop_left done todo
    have htake : (done ++ todo).take done.length = done := List.take_left done todo
    unfold retryLoop retrySpec
    simp only [EngineM.bind_ok _ _ _ _ _ (EngineM.getState_apply q), hdrop, htake]
    by_cases hemp : todo.isEmpty
    · rw [if_pos hemp, if_pos hemp]
    · rw [if_neg hemp, if_neg hemp]
      rcases hraw : perform_raw_transfers todo q with ⟨q1, r1⟩
      cases r1 with
      | error e =>
        rw [EngineM.bind_err _ _ _ _ _ hraw, EngineM.bind_err _ _ _ _ _ hraw]
      | ok chunk' =>
        simp only [EngineM.bind_ok _ _ _ _ _ hraw]
        cases hwalk : walkChunk chunk' with
        | allOk =>
          simp only [hwalk]
          rw [if_pos (beq_iff_eq.mpr (by simp))]
        | wait k =>
          simp only [hwalk]
          rcases hclr : clear_overrun_and_sticky_err q1 with ⟨q2, r2⟩
          cases r2 with
          | error e =>
            rw [EngineM.bind_err _ _ _ _ _ hclr, EngineM.bind_err _ _ _ _ _ hclr]
          | ok u =>
            simp only [EngineM.bind_ok _ _ _ _ _ hclr]
            have hk := walkChunk_wait_lt chunk' k hwalk
            have hlen : (done ++ (chunk'.map (fun t =>
                if t.is_write then
                  { t with idle_cycles_after := t.idle_cycles_after + idle }
                else t)).take k).length = done.length + k := by
              simp only [List.length_append, List.length_take, List.length_map]
              omega
            have hsplit : done ++ chunk'.map (fun t =>
                if t.is_write then
                  { t with idle_cycles_after := t.idle_cycles_after + idle }
                else t) =
                (done ++ (chunk'.map (fun t =>
                  if t.is_write then
                    { t with idle_cycles_after := t.idle_cycles_after + idle }
                  else t)).take k) ++ (chunk'.map (fun t =>
                  if t.is_write then
                    { t with idle_cycles_after := t.idle_cycles_after + idle }
                  else t)).drop k := by
              rw [List.append_assoc, List.take_append_drop]
            rw [hsplit, ← hlen]
            exact ih _ _ _ q2
        | other k =>
          simp only [hwalk]

/-- C4 counterexample: two CTRL/STAT writes, the first answered OK and the
second WAIT. The actual retry layer adds the idle bump to every write of the
whole chunk, so the first - already successful - write comes back with
`idle_cycles_after = 1`; the claim's loop, which bumps only the transfers at
and after the failing one, leaves it at 0. -/
theorem C4_wait_retry_counterexample :
    (perform_raw_transfers_retry c4_ts c4_probe).2.toOption.getD [] ≠
      (retryClaimed c4_probe.settings.num_retries_after_wait [] c4_ts
        (max 1 c4_probe.settings.num_idle_cycles_between_writes) c4_probe).2.toOption.getD []
    ∧ ((perform_raw_transfers_retry c4_ts c4_probe).2.toOption.getD []).map
        DapTransfer.idle_cycles_after = [1, 1]
    ∧ ((retryClaimed c4_probe.settings.num_retries_after_wait [] c4_ts
        (max 1 c4_probe.settings.num_idle_cycles_between_writes) c4_probe).2.toOption.getD
        []).map DapTransfer.idle_cycles_after = [0, 1]
    ∧ c4_ts.map DapTransfer.idle_cycles_after = [0, 0] := by
  refine ⟨?_, ?_, ?_, ?_⟩ <;> decide

/-- C4 (amended): the WAIT-retry layer is exactly the loop narrated by the
claim - initial `idle_cycles = max(1, num_idle_cycles_between_writes)`, up to
`num_retries_after_wait` rounds, sticky-clear ABORT and capped doubling on a
WAIT, resumption from the failing transfer, stop with Ok on any other
failure, DAPABORT on exhaustion - with one correction: on a WAIT the idle
bump applies to every write in the WHOLE re-executed chunk, including its
leading transfers that had just succeeded, not only those at and after the
failing one. -/
theorem C4_wait_retry_amended :
    (∀ (fuel : Nat) (done todo : List DapTransfer) (idle : Nat) (q : ProbeState),
        retryLoop fuel (done ++ todo) done.length idle q = retrySpec fuel done todo idle q)
    ∧ ∀ (ts : List DapTransfer) (q : ProbeState),
        perform_raw_transfers_retry ts q =
          retrySpec q.settings.num_retries_after_wait [] ts
            (max 1 q.settings.num_idle_cycles_between_writes) q := by
  refine ⟨retryLoop_eq_retrySpec, ?_⟩
  intro ts q
  unfold perform_raw_transfers_retry
  simp only [EngineM.bind_ok _ _ _ _ _ (EngineM.getState_apply q)]
  exact retryLoop_eq_retrySpec _ [] ts _ q

/-- Witness for C3 at a concrete successful JTAG run. -/
theorem C3_idle_restore_witness :
    (perform_jtag_transfer dpidrRead c3_probe).1.idle_cycles = c3_probe.idle_cycles
      ∧ isProbeError (perform_jtag_transfers [dpidrRead]
          { c3_probe with
            batch_script := [[Except.ok (mkJtagResp 2 0), Except.ok (mkJtagResp 2 0),
              Except.ok (mkJtagResp 2 0), Except.ok (mkJtagResp 2 0)]] }).2 = false
      ∧ (perform_jtag_transfers [dpidrRead]
          { c3_probe with
            batch_script := [[Except.ok (mkJtagResp 2 0), Except.ok (mkJtagResp 2 0),
              Except.ok (mkJtagResp 2 0), Except.ok (mkJtagResp 2 0)]] }).1.idle_cycles =
          ({ c3_probe with
            batch_script := [[Except.ok (mkJtagResp 2 0), Except.ok (mkJtagResp 2 0),
              Except.ok (mkJtagResp 2 0), Except.ok (mkJtagResp 2 0)]] } : ProbeState).idle_cycles :=
  ⟨C3_idle_restore_amended.1 c3_probe dpidrRead, by decide,
    C3_idle_restore_amended.2 _ [dpidrRead] (by decide)⟩

/-! ### C8 - JTAG sticky-error downgrade -/

theorem getD_replicate_self {α : Type} (n i : Nat) (a : α) :
    (List.replicate n a).getD i a = a := by
  rw [List.getD_eq_getElem?_getD, List.getElem?_replicate]
  split <;> rfl

/-- `perform_jtag_transfer` always records exactly its one DR write command in
the command trace. -/
theorem perform_jtag_transfer_trace (p : ProbeState) (t : DapTransfer) :
    (perform_jtag_transfer t p).1.jtag_trace = p.jtag_trace ++ [t.jtag_write] := by
  unfold perform_jtag_transfer DapTransfer.jtag_write
  cases hscript : p.jtag_script with
  | nil =>
    simp [EngineM.bind_apply, EngineM.read_idle_cycles_apply,
      EngineM.set_idle_cycles_apply, EngineM.write_register, EngineM.pure_apply,
      EngineM.throw_apply, hscript]
  | cons r rest =>
    cases r with
    | ok bits =>
      by_cases hab : t.is_abort <;>
        simp [EngineM.bind_apply, EngineM.read_idle_cycles_apply,
          EngineM.set_idle_cycles_apply, EngineM.write_register, EngineM.pure_apply,
          EngineM.throw_apply, hscript, hab]
    | error e =>
      simp [EngineM.bind_apply, EngineM.read_idle_cycles_apply,
        EngineM.set_idle_cycles_apply, EngineM.write_register, EngineM.pure_apply,
        EngineM.throw_apply, hscript]

/-- The sticky branch of the post-restore stage: when the CTRL/STAT handle
holds a value with the sticky-error bit set and the stage succeeds, the output
is the shift loop's output with every `Ok` downgraded to
`Failed FaultResponse` (other statuses untouched), and the final state is the
one left by the corrective CTRL/STAT write. -/
theorem jtagFinish_sticky (jr : List CommandResult) (hh iters : Nat)
    (ts1 : List DapTransfer) (p p' : ProbeState) (out : List DapTransfer) (v : Nat)
    (hg : jr[hh]? = some (CommandResult.U32 v))
    (hsticky : Ctrl.sticky_err v = true)
    (h : jtagFinish jr (some hh) iters ts1 p = (p', Except.ok out)) :
    ∃ transfers2,
      shiftLoop jr 0 iters ts1 = Except.ok transfers2
      ∧ out = transfers2.map (fun t =>
          if t.status = TransferStatus.Ok then
            { t with status := TransferStatus.Failed DapError.FaultResponse }
          else t)
      ∧ p' = (perform_jtag_transfer
          (DapTransfer.write (RegisterAddress.DpRegister Ctrl.ADDRESS) v) p).1 := by
  unfold jtagFinish at h
  cases hs : shiftLoop jr 0 iters ts1 with
  | error e => simp [hs, EngineM.throw_apply] at h
  | ok transfers2 =>
    rcases h4 : perform_jtag_transfer
        (DapTransfer.write (RegisterAddress.DpRegister Ctrl.ADDRESS) v) p with ⟨p4, r4⟩
    cases r4 with
    | error e =>
      simp [hs, hg, hsticky, EngineM.bind_apply, h4] at h
    | ok u =>
      simp [hs, hg, hsticky, EngineM.bind_apply, h4, EngineM.pure_apply] at h
      refine ⟨transfers2, rfl, h.2.symm, ?_⟩
      exact h.1.symm

/-- C8: for a batch whose last transfer is not an ABORT write, the JTAG
executor's queue appends a CTRL/STAT read followed by a final RDBUFF read
(after the optional flush read); and on a fully successful batch whose
CTRL/STAT slot reads back a sticky-error value, the run issues a corrective
CTRL/STAT write (visible as the last traced command) and downgrades every Ok
status in the caller's batch to Failed(FaultResponse), leaving non-Ok
statuses unchanged (the downgrade is literally a map touching only Ok
entries). -/
theorem C8_sticky_downgrade (ts : List DapTransfer) (p p' : ProbeState)
    (out : List DapTransfer) (s : List (Except DebugProbeError (List Bool)))
    (bs : List (List (Except DebugProbeError (List Bool))))
    (results : List CommandResult) (cv : Nat)
    (hne : ts ≠ [])
    (hlast : (ts.getLastD dummyTransfer).is_abort = false)
    (hbs : p.batch_script = s :: bs)
    (hq : execBatch s (jtagQueue ts) = Except.ok results)
    (hctrl : results[(jtagQueue ts).length - 2]? = some (CommandResult.U32 cv))
    (hsticky : Ctrl.sticky_err cv = true)
    (hrun : perform_jtag_transfers ts p = (p', Except.ok out)) :
    jtagQueue ts = (ts.map DapTransfer.jtag_write ++
        (if (ts.getLastD dummyTransfer).is_rdbuff then []
         else [(DapTransfer.read (RegisterAddress.DpRegister RdBuff.ADDRESS)).jtag_write])) ++
      [(DapTransfer.read (RegisterAddress.DpRegister Ctrl.ADDRESS)).jtag_write,
       (DapTransfer.read (RegisterAddress.DpRegister RdBuff.ADDRESS)).jtag_write]
    ∧ out.length = ts.length
    ∧ (∃ transfers2 : List DapTransfer, (∀ u ∈ transfers2, u.status = TransferStatus.Ok)
        ∧ out = transfers2.map (fun t =>
            if t.status = TransferStatus.Ok then
              { t with status := TransferStatus.Failed DapError.FaultResponse }
            else t))
    ∧ (∀ t ∈ out, t.status = TransferStatus.Failed DapError.FaultResponse)
    ∧ p'.jtag_trace = p.jtag_trace ++
        [(DapTransfer.write (RegisterAddress.DpRegister Ctrl.ADDRESS) cv).jtag_write] := by
  have hempty : ts.isEmpty = false := by
    cases ts with
    | nil => exact absurd rfl hne
    | cons a l => rfl
  have hlast2 : (ts.getLast?.getD dummyTransfer).is_abort = false := by
    rw [← List.getLastD_eq_getLast?]
    exact hlast
  have hqueue : jtagQueue ts = (ts.map DapTransfer.jtag_write ++
      (if (ts.getLastD dummyTransfer).is_rdbuff then []
       else [(DapTransfer.read (RegisterAddress.DpRegister RdBuff.ADDRESS)).jtag_write])) ++
      [(DapTransfer.read (RegisterAddress.DpRegister Ctrl.ADDRESS)).jtag_write,
       (DapTransfer.read (RegisterAddress.DpRegister RdBuff.ADDRESS)).jtag_write] := by
    cases hrd : (ts.getLastD dummyTransfer).is_rdbuff with
    | false =>
      have hrd2 : (ts.getLast?.getD dummyTransfer).is_rdbuff = false := by
        rw [← List.getLastD_eq_getLast?]
        exact hrd
      simp [jtagQueue, hlast2, hrd2, List.getLastD_eq_getLast?]
    | true =>
      have hrd2 : (ts.getLast?.getD dummyTransfer).is_rdbuff = true := by
        rw [← List.getLastD_eq_getLast?]
        exact hrd
      simp [jtagQueue, hlast2, hrd2, List.getLastD_eq_getLast?]
  have hts1 : ∀ (sr : List TransferStatus), (∀ x ∈ sr, x = TransferStatus.Ok) →
      ∀ t ∈ ts.enum.map (fun it =>
        { it.2 with status := sr.getD (it.1 + 1) TransferStatus.Ok }),
        t.status = TransferStatus.Ok := by
    intro sr hsr t ht
    rcases List.mem_map.mp ht with ⟨⟨i, t0⟩, hmem, rfl⟩
    show sr.getD (i + 1) TransferStatus.Ok = TransferStatus.Ok
    by_cases hi : i + 1 < sr.length
    · rw [List.getD_eq_getElem _ _ hi]
      exact hsr _ (List.getElem_mem hi)
    · rw [List.getD_eq_getElem?_getD, List.getElem?_eq_none (by omega), Option.getD_none]
  rw [perform_jtag_transfers] at hrun
  simp only [hempty, Bool.false_eq_true, if_false] at hrun
  simp only [EngineM.bind_apply, EngineM.read_idle_cycles_apply,
    EngineM.set_idle_cycles_apply, EngineM.write_register_batch, EngineM.pure_apply,
    hbs, hq, hlast, Bool.not_false, eq_self_iff_true, if_true] at hrun
  obtain ⟨transfers2, hs, hout, hp'⟩ :=
    jtagFinish_sticky _ _ _ _ _ _ _ _ hctrl hsticky hrun
  have ht2 : ∀ u ∈ transfers2, u.status = TransferStatus.Ok :=
    shiftLoop_statuses (· = TransferStatus.Ok) rfl _ _ _ _ _
      (hts1 _ (fun x hx => (List.mem_replicate.mp hx).2)) hs
  have hlen : out.length = ts.length := by
    rw [hout, List.length_map, shiftLoop_length _ _ _ _ _ hs]
    simp [List.enum_length]
  refine ⟨hqueue, hlen, ⟨transfers2, ht2, hout⟩, ?_, ?_⟩
  · intro t ht
    rw [hout] at ht
    rcases List.mem_map.mp ht with ⟨u, hu, rfl⟩
    simp [ht2 u hu]
  · rw [hp', perform_jtag_transfer_trace]

/-- Witness for C8 at a concrete single-read batch whose CTRL/STAT slot reads
back a sticky-error value. -/
theorem C8_sticky_downgrade_witness :
    Ctrl.sticky_err 32 = true
    ∧ ([dpidrRead].getLastD dummyTransfer).is_abort = false
    ∧ (∀ t ∈ (perform_jtag_transfers [dpidrRead] c8_probe).2.toOption.getD [],
        t.status = TransferStatus.Failed DapError.FaultResponse)
    ∧ (perform_jtag_transfers [dpidrRead] c8_probe).1.jtag_trace =
        c8_probe.jtag_trace ++
          [(DapTransfer.write (RegisterAddress.DpRegister Ctrl.ADDRESS) 32).jtag_write] := by
  have hrun : perform_jtag_transfers [dpidrRead] c8_probe =
      (ProbeState.mk WireProtocol.Jtag settings0 3 [] [] [] [JtagCmd.mk 10 258],
        Except.ok [DapTransfer.mk (RegisterAddress.DpRegister DPIDR.ADDRESS)
          TransferDirection.Read 7 (TransferStatus.Failed DapError.FaultResponse) 0]) := by
    decide
  have hmain := C8_sticky_downgrade [dpidrRead] c8_probe _ _
    [Except.ok (mkJtagResp 2 5), Except.ok (mkJtagResp 2 7),
     Except.ok (mkJtagResp 2 32), Except.ok (mkJtagResp 2 9)] []
    [CommandResult.U32 5, CommandResult.U32 7, CommandResult.U32 32, CommandResult.U32 9] 32
    (by decide) (by decide) (by decide) (by decide) (by decide) (by decide) hrun
  refine ⟨by decide, by decide, ?_, ?_⟩
  · intro t ht
    rw [hrun] at ht
    simp only [Except.toOption] at ht
    exact hmain.2.2.2.1 t ht
  · rw [hrun]
    exact hmain.2.2.2.2

end Polyfill

namespace Wlink

/-! ### C9 - the WCH-Link DMI dispatch -/

/-- C9: a 41-bit DMI register write decodes `addr` from bit 34 (6 bits),
`data` from bit 2 (32 bits) and `op` from bit 0 (2 bits), dispatches op READ
to a `DmiOp::read` USB round trip whose answer is cached in `last_dmi_read`,
op WRITE to `DmiOp::write`, op NOP with `addr = 0` and `data = 0` to the
cached tuple with the probe state untouched (no USB round trip: the script
and trace are unchanged), any other NOP to `DmiOp::nop`, and packs the
answered `(addr, data, op)` back as `addr <<< 34 ||| data <<< 2 ||| op`
rendered as 128 little-endian bits. -/
theorem C9_wlink_dmi_dispatch :
    (∀ (s : WchLinkState) (v ra rd rop : Nat) (rest : List (Nat × Nat × Nat)),
      v &&& 0b11 = DMI_OP_READ →
      s.dmi_script = (ra, rd, rop) :: rest →
      wlink_write_register s REG_DMI_ADDRESS v 41 =
        (⟨some (ra, rd, rop), rest,
            s.usb_trace ++ [DmiCommand.read ((v >>> 34) &&& 0x3f)]⟩,
          Except.ok (natBitsLE 128 ((ra <<< 34) ||| (rd <<< 2) ||| rop))))
    ∧ (∀ (s : WchLinkState) (v ra rd rop : Nat) (rest : List (Nat × Nat × Nat)),
      v &&& 0b11 = DMI_OP_WRITE →
      s.dmi_script = (ra, rd, rop) :: rest →
      wlink_write_register s REG_DMI_ADDRESS v 41 =
        (⟨s.last_dmi_read, rest,
            s.usb_trace ++ [DmiCommand.write ((v >>> 34) &&& 0x3f)
              ((v >>> 2) &&& 0xffffffff)]⟩,
          Except.ok (natBitsLE 128 ((ra <<< 34) ||| (rd <<< 2) ||| rop))))
    ∧ (∀ (s : WchLinkState) (v ra rd rop : Nat),
      v &&& 0b11 = DMI_OP_NOP →
      (v >>> 34) &&& 0x3f = 0 →
      (v >>> 2) &&& 0xffffffff = 0 →
      s.last_dmi_read = some (ra, rd, rop) →
      wlink_write_register s REG_DMI_ADDRESS v 41 =
        (s, Except.ok (natBitsLE 128 ((ra <<< 34) ||| (rd <<< 2) ||| rop))))
    ∧ (∀ (s : WchLinkState) (v ra rd rop : Nat) (rest : List (Nat × Nat × Nat)),
      v &&& 0b11 = DMI_OP_NOP →
      (((v >>> 34) &&& 0x3f == 0) && ((v >>> 2) &&& 0xffffffff == 0)) = false →
      s.dmi_script = (ra, rd, rop) :: rest →
      wlink_write_register s REG_DMI_ADDRESS v 41 =
        (⟨s.last_dmi_read, rest, s.usb_trace ++ [DmiCommand.nop]⟩,
          Except.ok (natBitsLE 128 ((ra <<< 34) ||| (rd <<< 2) ||| rop)))) := by
  refine ⟨?_, ?_, ?_, ?_⟩
  · intro s v ra rd rop rest hop hscript
    simp [wlink_write_register, WchLinkState.dmi_op, hop, hscript,
      DMI_OP_MASK, DMI_OP_READ, DMI_OP_NOP, DMI_OP_WRITE,
      REG_DMI_ADDRESS, REG_DTMCS_ADDRESS, DMI_ADDRESS_BIT_OFFSET, DMI_VALUE_BIT_OFFSET]
  · intro s v ra rd rop rest hop hscript
    simp [wlink_write_register, WchLinkState.dmi_op, hop, hscript,
      DMI_OP_MASK, DMI_OP_READ, DMI_OP_NOP, DMI_OP_WRITE,
      REG_DMI_ADDRESS, REG_DTMCS_ADDRESS, DMI_ADDRESS_BIT_OFFSET, DMI_VALUE_BIT_OFFSET]
  · intro s v ra rd rop hop ha hd hcache
    simp [wlink_write_register, WchLinkState.dmi_op, hop, ha, hd, hcache,
      DMI_OP_MASK, DMI_OP_READ, DMI_OP_NOP, DMI_OP_WRITE,
      REG_DMI_ADDRESS, REG_DTMCS_ADDRESS, DMI_ADDRESS_BIT_OFFSET, DMI_VALUE_BIT_OFFSET]
  · intro s v ra rd rop rest hop hcond hscript
    simp [wlink_write_register, WchLinkState.dmi_op, hop, hcond, hscript,
      DMI_OP_MASK, DMI_OP_READ, DMI_OP_NOP, DMI_OP_WRITE,
      REG_DMI_ADDRESS, REG_DTMCS_ADDRESS, DMI_ADDRESS_BIT_OFFSET, DMI_VALUE_BIT_OFFSET]

/-- Witness for C9: a concrete READ (answered `(4, 5, 0)`, cached) followed by
a NOP with zero address and data served from the cache with no state change. -/
theorem C9_wlink_dmi_dispatch_witness :
    wlink_write_register ⟨none, [(4, 5, 0)], []⟩ REG_DMI_ADDRESS ((4 <<< 34) ||| 1) 41 =
      (⟨some (4, 5, 0), [], [DmiCommand.read 4]⟩,
        Except.ok (natBitsLE 128 ((4 <<< 34) ||| (5 <<< 2) ||| 0)))
    ∧ wlink_write_register ⟨some (4, 5, 0), [], [DmiCommand.read 4]⟩ REG_DMI_ADDRESS 0 41 =
      (⟨some (4, 5, 0), [], [DmiCommand.read 4]⟩,
        Except.ok (natBitsLE 128 ((4 <<< 34) ||| (5 <<< 2) ||| 0))) := by
  constructor
  · exact C9_wlink_dmi_dispatch.1 ⟨none, [(4, 5, 0)], []⟩ ((4 <<< 34) ||| 1) 4 5 0 []
      (by decide) rfl
  · exact C9_wlink_dmi_dispatch.2.2.1 ⟨some (4, 5, 0), [], [DmiCommand.read 4]⟩ 0 4 5 0
      (by decide) (by decide) (by decide) rfl

end Wlink
